import Mathlib

/-!
# eventmodule.c — the Python binding of libevent

A shallow embedding of `src/libevent/eventmodule.c`.  The module is glue
between two external systems, the CPython C-API and libevent 1.x; both are
outside the repository.  The binding's own functions are embedded line by
line.  The libevent entry points whose outcome depends on the operating
system (`event_add`, `event_del`, the loop functions) are taken as a
parameter `Libevent σ`, so that statements proved for every `Libevent σ` hold
whatever the library does.  `libevent1` is one instance following libevent
1.4's `event.c`; it supplies concrete runs.

C numbers: `int`, `long` and `short` values are `Int`s (range checks are
explicit where the code performs them), a `double` is an exact dyadic number
with IEEE-754 binary64 rounding (round to nearest, ties to even) applied after
every arithmetic operation.
-/

namespace EventModule

/-! ## C doubles -/

/-- A C `double`: `finite m e` denotes `m * 2^e`. -/
inductive Double where
  | finite (m : Int) (e : Int)
  | nan
  | inf (negative : Bool)
  deriving DecidableEq, Repr

/-- Bit length of a natural number, `fuel` bounding the number of halvings. -/
def bitLenAux : Nat → Nat → Nat
  | 0, _ => 0
  | fuel + 1, n => if n = 0 then 0 else bitLenAux fuel (n / 2) + 1

/-- Bit length: the least `k` with `n < 2^k`. -/
def bitLen (n : Nat) : Nat := bitLenAux n n

/-- Integer quotient rounded to nearest, ties to even: `a / d` for `d > 0`. -/
def divRoundEven (a d : Nat) : Nat :=
  let q := a / d
  let r := a % d
  if d < 2 * r ∨ (2 * r = d ∧ q % 2 = 1) then q + 1 else q

/-- Rounding of the exact value `M * 2^e` to binary64: 53 significant bits,
least exponent `-1074`, overflow to infinity at `2^1024` (a rounded value
`q * 2^e1` reaches `2^1024` exactly when `bitLen q + e1` exceeds 1024). -/
def roundNE (M : Int) (e : Int) : Double :=
  let a := M.natAbs
  let s : Int := max ((bitLen a : Int) - 53) (-1074 - e)
  let q : Nat := if s ≤ 0 then a else divRoundEven a (2 ^ s.toNat)
  let e1 : Int := if s ≤ 0 then e else e + s
  if 1024 < (bitLen q : Int) + e1 then Double.inf (decide (M < 0))
  else Double.finite (if M < 0 then -(q : Int) else (q : Int)) e1

namespace Double

/-- The rational value of a finite double (`0` for the others). -/
def toRat : Double → ℚ
  | finite m e => (m : ℚ) * (2 : ℚ) ^ e
  | _ => 0

/-- A finite binary64 datum: at most 53 significant bits, exponent in range. -/
def IsBinary64 : Double → Prop
  | finite m e => m.natAbs < 2 ^ 53 ∧ -1074 ≤ e ∧ e ≤ 971
  | _ => True

/-- The C comparison `x >= 0.0`. -/
def geZero : Double → Bool
  | finite m _ => decide (0 ≤ m)
  | nan => false
  | inf negative => !negative

/-- The C conversion `(long) x`: truncation toward zero; `none` where C leaves
the conversion undefined (value outside the range of a 64-bit `long`). -/
def toLong : Double → Option Int
  | finite m e =>
    let v : Int := if 0 ≤ e then m * 2 ^ e.toNat else Int.tdiv m (2 ^ (-e).toNat)
    if -(2 : Int) ^ 63 ≤ v ∧ v < (2 : Int) ^ 63 then some v else none
  | _ => none

/-- The C conversion of a `long` to `double`. -/
def ofLong (n : Int) : Double := roundNE n 0

/-- The C subtraction of doubles. -/
def sub : Double → Double → Double
  | finite m1 e1, finite m2 e2 =>
    let e := min e1 e2
    roundNE (m1 * 2 ^ (e1 - e).toNat - m2 * 2 ^ (e2 - e).toNat) e
  | inf s, finite _ _ => inf s
  | finite _ _, inf s => inf (!s)
  | inf s1, inf s2 => if s1 = s2 then nan else inf s1
  | _, _ => nan

/-- The C multiplication of doubles. -/
def mul : Double → Double → Double
  | finite m1 e1, finite m2 e2 => roundNE (m1 * m2) (e1 + e2)
  | inf s, finite m _ => if m = 0 then nan else inf (s != decide (m < 0))
  | finite m _, inf s => if m = 0 then nan else inf (s != decide (m < 0))
  | inf s1, inf s2 => inf (s1 != s2)
  | _, _ => nan

/-- The C addition of doubles. -/
def add : Double → Double → Double
  | finite m1 e1, finite m2 e2 =>
    let e := min e1 e2
    roundNE (m1 * 2 ^ (e1 - e).toNat + m2 * 2 ^ (e2 - e).toNat) e
  | inf s, finite _ _ => inf s
  | finite _ _, inf s => inf s
  | inf s1, inf s2 => if s1 = s2 then inf s1 else nan
  | _, _ => nan

/-- The C division of doubles.  The quotient of the mantissas is taken with at
least 55 bits, a last bit recording whether a remainder was left, so that the
rounding to binary64 is that of the exact quotient. -/
def div : Double → Double → Double
  | finite m1 e1, finite m2 e2 =>
    if m2 = 0 then (if m1 = 0 then nan else inf (decide (m1 < 0)))
    else
      let a := m1.natAbs
      let b := m2.natAbs
      let k := 55 + bitLen b - bitLen a
      let q := a * 2 ^ k / b
      let sticky : Nat := if a * 2 ^ k % b = 0 then 0 else 1
      let M : Int := ((2 * q + sticky : Nat) : Int)
      roundNE (if decide (m1 < 0) != decide (m2 < 0) then -M else M) (e1 - e2 - (k : Int) - 1)
  | inf s, finite m _ => inf (s != decide (m < 0))
  | finite _ _, inf _ => finite 0 0
  | _, _ => nan

end Double

/-- The C `struct timeval`. -/
structure timeval where
  tv_sec : Int
  tv_usec : Int
  deriving DecidableEq, Repr

/-- Lines 134-135 and 426-427: `tv.tv_sec = (long) t; tv.tv_usec = (t - (long)
t) * 1000000;`.  `none` where a conversion to `long` is undefined. -/
def secondsToTimeval (t : Double) : Option timeval :=
  match t.toLong with
  | none => none
  | some sec =>
    match ((t.sub (Double.ofLong sec)).mul (Double.finite 1000000 0)).toLong with
    | none => none
    | some usec => some ⟨sec, usec⟩

/-! ## The CPython side

Python values, the error indicator and `PyArg_ParseTupleAndKeywords`, following
the CPython 2 C-API the module is written against. -/

/-- The C struct `EventBaseObject` (lines 19-22): its identity and the
`struct event_base *` it wraps (set once by `EventBase_New`). -/
structure EventBaseObject where
  id : Nat
  ev_base : Nat
  deriving DecidableEq, Repr

/-- Python objects that reach the module.  Objects with an identity carry it;
`eventBase` is an instance of exactly `event.EventBase`, `event` one of
`event.Event`, `obj` any object that is neither of these, nor a number, nor
`None`. -/
inductive PyObj where
  | none
  | int (n : Int)
  | float (x : Double)
  | obj (id : Nat) (callable : Bool)
  | eventBase (o : EventBaseObject)
  | event (id : Nat)
  deriving DecidableEq, Repr

/-- Exceptions that can be pending in the interpreter. -/
inductive PyExc where
  | typeError
  | overflowError
  | valueError
  | eventError (msg : String)
  | eventErrno (errno : Int)
  | systemExit (code : Int)
  | raised (id : Nat)
  deriving DecidableEq, Repr

/-- One invocation made through `PyObject_Call`. -/
structure CallRecord where
  callee : PyObj
  args : List PyObj
  kwargs : Option (List (String × PyObj))
  deriving DecidableEq, Repr

/-- What the interpreter wrote to `sys.stderr`. -/
inductive StderrItem where
  | traceback (e : PyExc)
  | unraisable (e : Option PyExc) (obj : PyObj)
  deriving DecidableEq, Repr

/-- The interpreter state the module can observe or change. -/
structure PyState where
  curexc : Option PyExc
  stderr : List StderrItem
  exited : Option Int
  deriving DecidableEq, Repr

/-- The call `PyErr_SetString(type, msg)` and its relatives: set the error indicator. -/
def PyErr_Set (py : PyState) (e : PyExc) : PyState := { py with curexc := some e }

/-- The call `PyErr_Print()`: for a pending `SystemExit` the interpreter exits the
process with its code (`handle_system_exit`); any other pending exception is
printed to `sys.stderr` and the error indicator is cleared. -/
def PyErr_Print (py : PyState) : PyState :=
  match py.curexc with
  | some (PyExc.systemExit code) => { py with exited := some code }
  | some e => { py with curexc := Option.none, stderr := py.stderr ++ [StderrItem.traceback e] }
  | Option.none => py

/-- The call `PyErr_WriteUnraisable(obj)`: fetch (and so clear) the pending
exception, write the "Exception ... in obj ignored" line to `sys.stderr`. -/
def PyErr_WriteUnraisable (py : PyState) (obj : PyObj) : PyState :=
  { py with curexc := Option.none, stderr := py.stderr ++ [StderrItem.unraisable py.curexc obj] }

/-- The call `PyCallable_Check(o)`. -/
def PyCallable_Check : PyObj → Bool
  | PyObj.obj _ callable => callable
  | _ => false

deriving instance DecidableEq for Except

/-- Format units used by the module. -/
inductive Fmt where
  | i
  | d
  | O
  deriving DecidableEq, Repr

/-- A converted argument as stored into the C variable. -/
inductive CVal where
  | int (n : Int)
  | dbl (x : Double)
  | obj (o : PyObj)
  deriving DecidableEq, Repr

def INT_MAX : Int := 2147483647
def INT_MIN : Int := -2147483648

/-- Conversion of one argument by its format unit (`convertitem` of getargs.c):
`i` takes a Python integer in the range of a C `int`, `d` a Python float or an
integer converted to the nearest double, `O` any object. -/
def convertitem : Fmt → PyObj → Except PyExc CVal
  | Fmt.i, PyObj.int n =>
    if INT_MIN ≤ n ∧ n ≤ INT_MAX then Except.ok (CVal.int n) else Except.error PyExc.overflowError
  | Fmt.i, _ => Except.error PyExc.typeError
  | Fmt.d, PyObj.float x => Except.ok (CVal.dbl x)
  | Fmt.d, PyObj.int n =>
    match roundNE n 0 with
    | Double.inf _ => Except.error PyExc.overflowError
    | x => Except.ok (CVal.dbl x)
  | Fmt.d, _ => Except.error PyExc.typeError
  | Fmt.O, o => Except.ok (CVal.obj o)

/-- The per-parameter loop of `PyArg_ParseTupleAndKeywords`: parameter `i` takes
its value from the positional arguments or from the keyword of its name; a value
given both ways, or a missing parameter before the `|` mark (`i < min`), is a
`TypeError`; a missing optional parameter leaves its C variable untouched
(`none`). -/
def parseFrom (args : List PyObj) (kwargs : List (String × PyObj)) (min : Nat) :
    Nat → List Fmt → List String → Except PyExc (List (Option CVal))
  | i, f :: fs, k :: ks =>
    match kwargs.lookup k, args.get? i with
    | some _, some _ => Except.error PyExc.typeError
    | some v, Option.none =>
      match convertitem f v with
      | Except.error e => Except.error e
      | Except.ok c => (parseFrom args kwargs min (i + 1) fs ks).map (fun r => some c :: r)
    | Option.none, some v =>
      match convertitem f v with
      | Except.error e => Except.error e
      | Except.ok c => (parseFrom args kwargs min (i + 1) fs ks).map (fun r => some c :: r)
    | Option.none, Option.none =>
      if i < min then Except.error PyExc.typeError
      else (parseFrom args kwargs min (i + 1) fs ks).map (fun r => Option.none :: r)
  | _, _, _ => Except.ok []

/-- The call `PyArg_ParseTupleAndKeywords(args, kwargs, format, kwlist, ...)`, the
format given as its units `fmt` and the number `min` of units before `|`
(all of them when there is no `|`).  More arguments than parameters are a
`TypeError` raised at once; then the parameters are converted one by one; a
keyword that is no parameter name is a `TypeError` raised last, once every
parameter has been converted. -/
def PyArg_ParseTupleAndKeywords (args : List PyObj) (kwargs : List (String × PyObj))
    (min : Nat) (fmt : List Fmt) (kwlist : List String) : Except PyExc (List (Option CVal)) :=
  if kwlist.length < args.length + kwargs.length then Except.error PyExc.typeError
  else
    match parseFrom args kwargs min 0 fmt kwlist with
    | Except.error e => Except.error e
    | Except.ok vals =>
      if kwargs.any (fun kv => !kwlist.contains kv.1) then Except.error PyExc.typeError
      else Except.ok vals

/-! ## The libevent side

`struct event` and the constants of libevent 1.x's `event.h`, and the library
entry points the module calls. -/

def EV_TIMEOUT : Int := 0x01
def EV_READ : Int := 0x02
def EV_WRITE : Int := 0x04
def EV_SIGNAL : Int := 0x08
def EV_PERSIST : Int := 0x10

def EVLIST_TIMEOUT : Int := 0x01
def EVLIST_INSERTED : Int := 0x02
def EVLIST_SIGNAL : Int := 0x04
def EVLIST_ACTIVE : Int := 0x08
def EVLIST_INTERNAL : Int := 0x10
def EVLIST_INIT : Int := 0x80

def EVLOOP_ONCE : Int := 0x01
def EVLOOP_NONBLOCK : Int := 0x02

/-- The C test `x & mask` (non-zero). -/
def hasBits (x mask : Int) : Bool := Int.land x mask != 0

/-- The C update `x &= ~mask`: the bits of `mask` that are set in `x` are taken
out of it. -/
def clearBits (x mask : Int) : Int := x - Int.land x mask

/-- Conversion of an `int` to `short` (two's complement wrap-around). -/
def toShort (n : Int) : Int := (n + 32768) % 65536 - 32768

/-- The fields of libevent's `struct event`.  `ev_arg` is the identity of the
object handed to `event_set` as callback argument, `ev_base` the base the event
is assigned to (`none` for `NULL`). -/
structure event where
  ev_fd : Int
  ev_events : Int
  ev_ncalls : Int
  ev_pri : Int
  ev_flags : Int
  ev_res : Int
  ev_base : Option Nat
  ev_arg : Option Nat
  ev_timeout : timeval
  deriving DecidableEq, Repr

/-- The macro `event_initialized(ev)` of event.h: `(ev)->ev_flags & EVLIST_INIT`. -/
def event_initialized (ev : event) : Bool := hasBits ev.ev_flags EVLIST_INIT

/-- An event counts as armed while libevent holds it in one of its queues. -/
def event.armed (ev : event) : Bool :=
  hasBits ev.ev_flags (Int.lor (Int.lor EVLIST_TIMEOUT EVLIST_INSERTED)
    (Int.lor EVLIST_SIGNAL EVLIST_ACTIVE))

/-- The libevent entry points the module calls, over a library state `σ`
(event bases, their queues, the clock, `errno`).  Each returns the C return
value and what it left in the library state and in the `struct event`.
`waits` observes how many multiplexing waits the library has performed. -/
structure Libevent (σ : Type) where
  event_set : σ → event → Int → Int → Nat → event
  event_base_set : σ → Nat → event → Int × event
  event_add : σ → event → Option timeval → Int × σ × event
  event_del : σ → event → Int × σ × event
  event_priority_set : σ → event → Int → Int × event
  event_pending : σ → event → Int → Bool → Int × Option timeval
  event_base_priority_init : σ → Nat → Int → Int × σ
  event_base_loop : σ → PyState → Nat → Int → Int × σ × PyState
  event_base_dispatch : σ → PyState → Nat → Int × σ × PyState
  event_base_loopexit : σ → Nat → timeval → Int × σ
  errno : σ → Int
  waits : σ → Nat

/-! ## The module's objects -/

/-- The C struct `EventObject` (lines 31-36) with the reference count of its
`PyObject_HEAD`.  `eventBase` and `callback` are `none` for `NULL`. -/
structure EventObject where
  id : Nat
  ob_refcnt : Int
  ev : event
  eventBase : Option EventBaseObject
  callback : Option PyObj
  deriving DecidableEq, Repr

/-- The macro `Py_INCREF` applied to an event object. -/
def EventObject.incref (o : EventObject) : EventObject := { o with ob_refcnt := o.ob_refcnt + 1 }

/-- The macro `Py_DECREF` applied to an event object (deallocation at zero is not modelled:
the record then describes released memory). -/
def EventObject.decref (o : EventObject) : EventObject := { o with ob_refcnt := o.ob_refcnt - 1 }

/-- What a method of `event.Event` leaves behind: the returned object
(`none` for a `NULL` return), the library state, the interpreter state and the
event object itself. -/
structure EventCall (σ : Type) where
  result : Option PyObj
  lib : σ
  py : PyState
  self : EventObject
  deriving DecidableEq

/-- Lines 307-315, `Event_New`: `tp_alloc` hands out zero-filled memory with
one reference; `eventBase` is set to `NULL`. -/
def Event_New (id : Nat) : EventObject :=
  { id := id, ob_refcnt := 1,
    ev := ⟨0, 0, 0, 0, 0, 0, Option.none, Option.none, ⟨0, 0⟩⟩,
    eventBase := Option.none, callback := Option.none }

/-- The call `PyObject_AsFileDescriptor(o)`: a non-negative Python integer in the
range of `int` is the descriptor itself; any other object is asked for its
`fileno()`, whose outcome is given by `fileno`. -/
def PyObject_AsFileDescriptor (fileno : PyObj → Except PyExc Int) : PyObj → Except PyExc Int
  | PyObj.int n =>
    if n < INT_MIN ∨ INT_MAX < n then Except.error PyExc.overflowError
    else if n < 0 then Except.error PyExc.valueError
    else Except.ok n
  | o =>
    match fileno o with
    | Except.error e => Except.error e
    | Except.ok n =>
      if n < INT_MIN ∨ INT_MAX < n then Except.error PyExc.overflowError
      else if n < 0 then Except.error PyExc.valueError
      else Except.ok n

/-- Lines 356-384, `Event_Init`.  Returns the C status, the interpreter state
and the event object. -/
def Event_Init {σ : Type} (L : Libevent σ) (fileno : PyObj → Except PyExc Int) (lib : σ)
    (py : PyState) (self : EventObject) (args : List PyObj) (kwargs : List (String × PyObj)) :
    Int × PyState × EventObject :=
  match PyArg_ParseTupleAndKeywords args kwargs 3 [Fmt.O, Fmt.i, Fmt.O] ["fd", "events", "callback"] with
  | Except.ok [some (CVal.obj fdObj), some (CVal.int events), some (CVal.obj callback)] =>
    if !PyCallable_Check callback then
      (-1, PyErr_Set py (PyExc.eventError "callback argument must be callable"), self)
    else
      let fdR : Except PyExc Int :=
        if fdObj ≠ PyObj.none then PyObject_AsFileDescriptor fileno fdObj else Except.ok (-1)
      match fdR with
      | Except.error e => (-1, PyErr_Set py e, self)
      | Except.ok fd =>
        let ev := L.event_set lib self.ev fd (toShort events) self.id
        if !event_initialized ev then (-1, py, { self with ev := ev })
        else (0, py, { self with ev := ev, callback := some callback })
  | Except.ok _ => (-1, PyErr_Set py PyExc.typeError, self)
  | Except.error e => (-1, PyErr_Set py e, self)

/-- Lines 425-432 of `Event_AddToLoop`: the `struct timeval *` handed to
`event_add` for a given `timeout`.  `some none` is the `NULL` pointer; the
outer `none` marks an undefined conversion to `long`. -/
def addToLoopTimeval (timeout : Double) : Option (Option timeval) :=
  if timeout.geZero then (secondsToTimeval timeout).map some else some Option.none

/-- Lines 416-423 of `Event_AddToLoop`: the C variable `timeout` after argument
parsing (format `"|d:addToLoop"`, initial value `-1.0`), or the exception
raised by the parser. -/
def addToLoopTimeout (args : List PyObj) (kwargs : List (String × PyObj)) : Except PyExc Double :=
  match PyArg_ParseTupleAndKeywords args kwargs 0 [Fmt.d] ["timeout"] with
  | Except.error e => Except.error e
  | Except.ok [some (CVal.dbl x)] => Except.ok x
  | Except.ok _ => Except.ok (Double.finite (-1) 0)

/-- Lines 414-440, `Event_AddToLoop`.  `none` where the C code has no defined
behaviour (a timeout beyond the range of `long`). -/
def Event_AddToLoop {σ : Type} (L : Libevent σ) (lib : σ) (py : PyState) (self : EventObject)
    (args : List PyObj) (kwargs : List (String × PyObj)) : Option (EventCall σ) :=
  match addToLoopTimeout args kwargs with
  | Except.error e => some ⟨Option.none, lib, PyErr_Set py e, self⟩
  | Except.ok timeout =>
    match addToLoopTimeval timeout with
    | Option.none => Option.none
    | some tv =>
      let r := L.event_add lib self.ev tv
      if r.1 ≠ 0 then
        some ⟨Option.none, r.2.1, PyErr_Set py (PyExc.eventErrno (L.errno r.2.1)), { self with ev := r.2.2 }⟩
      else
        some ⟨some PyObj.none, r.2.1, py, { self with ev := r.2.2 }.incref⟩

/-- Lines 445-455, `Event_RemoveFromLoop` (a `METH_NOARGS` method). -/
def Event_RemoveFromLoop {σ : Type} (L : Libevent σ) (lib : σ) (py : PyState) (self : EventObject) :
    EventCall σ :=
  let r := L.event_del lib self.ev
  if r.1 < 0 then
    ⟨Option.none, r.2.1, PyErr_Set py (PyExc.eventErrno (L.errno r.2.1)), { self with ev := r.2.2 }⟩
  else
    ⟨some PyObj.none, r.2.1, py, { self with ev := r.2.2 }.decref⟩

/-- Lines 457-482, `Event_SetEventBase`. -/
def Event_SetEventBase {σ : Type} (L : Libevent σ) (lib : σ)
    (py : PyState) (self : EventObject) (args : List PyObj) (kwargs : List (String × PyObj)) :
    EventCall σ :=
  match PyArg_ParseTupleAndKeywords args kwargs 1 [Fmt.O] ["eventBase"] with
  | Except.ok [some (CVal.obj (PyObj.eventBase eventBase))] =>
    let r := L.event_base_set lib eventBase.ev_base self.ev
    if r.1 < 0 then
      ⟨Option.none, lib, PyErr_Set py (PyExc.eventError "unable to set event base"), { self with ev := r.2 }⟩
    else
      ⟨some PyObj.none, lib, py, { self with ev := r.2, eventBase := some eventBase }⟩
  | Except.ok [some (CVal.obj _)] =>
    ⟨Option.none, lib, PyErr_Set py (PyExc.eventError "argument is not an EventBase object"), self⟩
  | Except.ok _ => ⟨Option.none, lib, PyErr_Set py PyExc.typeError, self⟩
  | Except.error e => ⟨Option.none, lib, PyErr_Set py e, self⟩

/-- Lines 390-406, `Event_SetPriority`. -/
def Event_SetPriority {σ : Type} (L : Libevent σ) (lib : σ) (py : PyState) (self : EventObject)
    (args : List PyObj) (kwargs : List (String × PyObj)) : EventCall σ :=
  match PyArg_ParseTupleAndKeywords args kwargs 0 [Fmt.i] ["priority"] with
  | Except.error e => ⟨Option.none, lib, PyErr_Set py e, self⟩
  | Except.ok vals =>
    let priority : Int :=
      match vals with
      | [some (CVal.int n)] => n
      | _ => 0
    let r := L.event_priority_set lib self.ev priority
    if r.1 < 0 then
      ⟨Option.none, lib, PyErr_Set py (PyExc.eventError
        "error setting event priority - event is either already active or priorities are not enabled"),
        { self with ev := r.2 }⟩
    else ⟨some PyObj.none, lib, py, { self with ev := r.2 }⟩

/-- Lines 488-494, `Event_Pending` (a `METH_NOARGS` method): the returned integer. -/
def Event_Pending {σ : Type} (L : Libevent σ) (lib : σ) (self : EventObject) : PyObj :=
  PyObj.int (L.event_pending lib self.ev
    (Int.lor (Int.lor EV_TIMEOUT EV_READ) (Int.lor EV_WRITE EV_SIGNAL)) false).1

/-- Lines 508-510 of `Event_GetTimeout`: `d = tv.tv_sec + (tv.tv_usec / 1000000.0)`. -/
def timevalToSeconds (tv : timeval) : Double :=
  (Double.ofLong tv.tv_sec).add ((Double.ofLong tv.tv_usec).div (Double.finite 1000000 0))

/-- Lines 500-514, `Event_GetTimeout` (a `METH_NOARGS` method): `tv.tv_sec` is
preset to `-1`, `event_pending` is called with the event mask `0` and `&tv`,
and a float is returned only if `tv.tv_sec` has become greater than `-1`. -/
def Event_GetTimeout {σ : Type} (L : Libevent σ) (lib : σ) (self : EventObject) : PyObj :=
  match (L.event_pending lib self.ev 0 true).2 with
  | some tv => if -1 < tv.tv_sec then PyObj.float (timevalToSeconds tv) else PyObj.none
  | Option.none => PyObj.none

/-- Lines 521-524, `Event_Fileno` (a `METH_NOARGS` method). -/
def Event_Fileno (self : EventObject) : PyObj := PyObj.int self.ev.ev_fd

/-- One call made by Python code on an event: `addToLoop` with its arguments, or
`removeFromLoop()`. -/
inductive LoopCall where
  | addToLoop (args : List PyObj) (kwargs : List (String × PyObj))
  | removeFromLoop
  deriving DecidableEq, Repr

/-- The state between the calls of a sequence on one event, with the numbers of
`addToLoop` and `removeFromLoop` calls that have succeeded so far. -/
structure LoopTrace (σ : Type) where
  lib : σ
  py : PyState
  self : EventObject
  adds : Nat
  removes : Nat
  deriving DecidableEq

/-- One call of a sequence, made through `Event_AddToLoop` or
`Event_RemoveFromLoop`; the call has succeeded when it returned an object.
`none` where the call has no defined behaviour. -/
def loopCallStep {σ : Type} (L : Libevent σ) (t : LoopTrace σ) : LoopCall → Option (LoopTrace σ)
  | LoopCall.addToLoop args kwargs =>
    match Event_AddToLoop L t.lib t.py t.self args kwargs with
    | Option.none => Option.none
    | some c => some ⟨c.lib, c.py, c.self, if c.result.isSome then t.adds + 1 else t.adds, t.removes⟩
  | LoopCall.removeFromLoop =>
    let c := Event_RemoveFromLoop L t.lib t.py t.self
    some ⟨c.lib, c.py, c.self, t.adds, if c.result.isSome then t.removes + 1 else t.removes⟩

/-- A sequence of `addToLoop` and `removeFromLoop` calls on one event, run in
order. -/
def callSequence {σ : Type} (L : Libevent σ) : List LoopCall → LoopTrace σ → Option (LoopTrace σ)
  | [], t => some t
  | call :: rest, t =>
    match loopCallStep L t call with
    | Option.none => Option.none
    | some t1 => callSequence L rest t1

/-- What running Python code does when the thunk calls the callback: it returns
a value or raises, and may have changed the interpreter state and the event
object on the way. -/
abbrev CallbackRun := CallRecord → PyState → EventObject → Except PyExc PyObj × PyState × EventObject

/-- What one run of the callback thunk leaves behind: the invocations it made
through `PyObject_Call`, the interpreter state, the event object. -/
structure ThunkRun where
  invoked : List CallRecord
  py : PyState
  ev : EventObject

/-- Lines 318-352, `__libevent_ev_callback`, called by libevent with the
`arg` registered by `event_set`, here the event object `ev`.  `none` where
`ev->callback` is `NULL` (the call through it is undefined).  After
`PyErr_Print` has ended the process nothing further runs. -/
def __libevent_ev_callback (run : CallbackRun) (py : PyState) (fd events : Int) (ev : EventObject) :
    Option ThunkRun :=
  match ev.callback with
  | Option.none => Option.none
  | some callback =>
    let tuple : List PyObj := [PyObj.int fd, PyObj.int events, PyObj.event ev.id]
    let call : CallRecord := ⟨callback, tuple, Option.none⟩
    let r := run call py ev.incref
    let ev1 := r.2.2.decref
    match r.1 with
    | Except.ok _ => some ⟨[call], r.2.1, ev1⟩
    | Except.error e =>
      let py1 := PyErr_Print (PyErr_Set r.2.1 e)
      if py1.exited.isSome then some ⟨[call], py1, ev1⟩
      else some ⟨[call], PyErr_WriteUnraisable py1 (ev1.callback.getD PyObj.none), ev1⟩

/-- What a method of `event.EventBase` leaves behind: the returned object
(`none` for a `NULL` return), the library state, the interpreter state. -/
structure BaseCall (σ : Type) where
  result : Option PyObj
  lib : σ
  py : PyState
  deriving DecidableEq

/-- Line 14. -/
def DEFAULT_NUM_PRIORITIES : Int := 3

/-- Lines 76-93, `EventBase_Init`: the C status, the library state and the
interpreter state. -/
def EventBase_Init {σ : Type} (L : Libevent σ) (lib : σ) (py : PyState) (self : EventBaseObject)
    (args : List PyObj) (kwargs : List (String × PyObj)) : Int × σ × PyState :=
  match PyArg_ParseTupleAndKeywords args kwargs 0 [Fmt.i] ["numPriorities"] with
  | Except.error e => (-1, lib, PyErr_Set py e)
  | Except.ok vals =>
    let parsed : Int :=
      match vals with
      | [some (CVal.int n)] => n
      | _ => 0
    let numPriorities : Int := if parsed = 0 then DEFAULT_NUM_PRIORITIES else parsed
    let r := L.event_base_priority_init lib self.ev_base numPriorities
    if r.1 < 0 then (-1, r.2, py) else (0, r.2, py)

/-- Lines 106-118, `EventBase_Loop`. -/
def EventBase_Loop {σ : Type} (L : Libevent σ) (lib : σ) (py : PyState) (self : EventBaseObject)
    (args : List PyObj) (kwargs : List (String × PyObj)) : BaseCall σ :=
  match PyArg_ParseTupleAndKeywords args kwargs 0 [Fmt.i] ["flags"] with
  | Except.error e => ⟨Option.none, lib, PyErr_Set py e⟩
  | Except.ok vals =>
    let flags : Int :=
      match vals with
      | [some (CVal.int n)] => n
      | _ => 0
    let r := L.event_base_loop lib py self.ev_base flags
    ⟨some (PyObj.int r.1), r.2.1, r.2.2⟩

/-- Lines 123-138, `EventBase_LoopExit`.  `none` where the conversion of the
seconds to `long` is undefined. -/
def EventBase_LoopExit {σ : Type} (L : Libevent σ) (lib : σ) (py : PyState) (self : EventBaseObject)
    (args : List PyObj) (kwargs : List (String × PyObj)) : Option (BaseCall σ) :=
  match PyArg_ParseTupleAndKeywords args kwargs 1 [Fmt.d] ["seconds"] with
  | Except.error e => some ⟨Option.none, lib, PyErr_Set py e⟩
  | Except.ok vals =>
    let exitAfterSecs : Double :=
      match vals with
      | [some (CVal.dbl x)] => x
      | _ => Double.finite 0 0
    match secondsToTimeval exitAfterSecs with
    | Option.none => Option.none
    | some tv =>
      let r := L.event_base_loopexit lib self.ev_base tv
      some ⟨some (PyObj.int r.1), r.2, py⟩

/-- Lines 146-152, `EventBase_Dispatch` (a `METH_NOARGS` method). -/
def EventBase_Dispatch {σ : Type} (L : Libevent σ) (lib : σ) (py : PyState) (self : EventBaseObject) :
    BaseCall σ :=
  let r := L.event_base_dispatch lib py self.ev_base
  ⟨some (PyObj.int r.1), r.2.1, r.2.2⟩

/-- Lines 161-175, `EventBase_CreateEvent`: the new event (`none` for a `NULL`
return) and the interpreter state.  `id` is the identity `tp_alloc` gives the
new object.  The call of its `setEventBase` method reaches
`Event_SetEventBase`, the new object being of exactly the type `event.Event`. -/
def EventBase_CreateEvent {σ : Type} (L : Libevent σ) (fileno : PyObj → Except PyExc Int) (lib : σ)
    (py : PyState) (self : EventBaseObject) (id : Nat) (args : List PyObj)
    (kwargs : List (String × PyObj)) : Option EventObject × PyState :=
  let newEvent := Event_New id
  let r := Event_Init L fileno lib py newEvent args kwargs
  if r.1 < 0 then (Option.none, r.2.1)
  else
    let c := Event_SetEventBase L lib r.2.1 r.2.2 [PyObj.eventBase self] []
    match c.result with
    | Option.none => (Option.none, c.py)
    | some _ => (some c.self, c.py)

/-- Lines 182-198, `EventBase_CreateTimer`, for `self` of exactly the type
`event.EventBase` (whose `createEvent` is `EventBase_CreateEvent`). -/
def EventBase_CreateTimer {σ : Type} (L : Libevent σ) (fileno : PyObj → Except PyExc Int) (lib : σ)
    (py : PyState) (self : EventBaseObject) (id : Nat) (args : List PyObj)
    (kwargs : List (String × PyObj)) : Option EventObject × PyState :=
  match PyArg_ParseTupleAndKeywords args kwargs 1 [Fmt.O] ["callback"] with
  | Except.ok [some (CVal.obj callback)] =>
    EventBase_CreateEvent L fileno lib py self id [PyObj.none, PyObj.int EV_TIMEOUT, callback] []
  | Except.ok _ => (Option.none, PyErr_Set py PyExc.typeError)
  | Except.error e => (Option.none, PyErr_Set py e)

/-- Lines 206-225, `EventBase_CreateSignalHandler`, for `self` of exactly the
type `event.EventBase` (whose `createEvent` is `EventBase_CreateEvent`). -/
def EventBase_CreateSignalHandler {σ : Type} (L : Libevent σ) (fileno : PyObj → Except PyExc Int)
    (lib : σ) (py : PyState) (self : EventBaseObject) (id : Nat) (args : List PyObj)
    (kwargs : List (String × PyObj)) : Option EventObject × PyState :=
  match PyArg_ParseTupleAndKeywords args kwargs 2 [Fmt.i, Fmt.O] ["signal", "callback"] with
  | Except.ok [some (CVal.int sig), some (CVal.obj callback)] =>
    EventBase_CreateEvent L fileno lib py self id
      [PyObj.int sig, PyObj.int (Int.lor EV_SIGNAL EV_PERSIST), callback] []
  | Except.ok _ => (Option.none, PyErr_Set py PyExc.typeError)
  | Except.error e => (Option.none, PyErr_Set py e)

/-! ## An instance of the library: libevent 1.4

The functions below follow `event.c` of libevent 1.4 for one event base.  What
the operating system contributes is part of the state: the answers of the
backend to registration and removal, the clock, and a script of what each
coming multiplexing wait delivers. -/

/-- What one multiplexing wait (the backend's `dispatch` followed by
`timeout_process`) delivers: a failure, or a wake-up that makes `activated`
events active, of which `retired` are non-persistent and leave the base when
their callbacks have run; `gotterm` tells whether the exit timer of
`event_base_loopexit` was among them. -/
inductive Pass where
  | failure
  | wake (activated : Int) (retired : Int) (gotterm : Bool)
  deriving DecidableEq, Repr

/-- The state of the library instance: the global `current_base`, the fields of
the one `struct event_base`, and the environment. -/
structure LibState where
  current_base : Option Nat
  nactivequeues : Int
  event_count : Int
  event_count_active : Int
  event_gotterm : Bool
  now : timeval
  backend_add : Int
  backend_del : Int
  errno : Int
  waits : Nat
  script : List Pass
  deriving DecidableEq, Repr

/-- The macro `timeradd`. -/
def timeradd (a b : timeval) : timeval :=
  if 1000000 ≤ a.tv_usec + b.tv_usec then ⟨a.tv_sec + b.tv_sec + 1, a.tv_usec + b.tv_usec - 1000000⟩
  else ⟨a.tv_sec + b.tv_sec, a.tv_usec + b.tv_usec⟩

/-- The macro `timersub`. -/
def timersub (a b : timeval) : timeval :=
  if a.tv_usec - b.tv_usec < 0 then ⟨a.tv_sec - b.tv_sec - 1, a.tv_usec - b.tv_usec + 1000000⟩
  else ⟨a.tv_sec - b.tv_sec, a.tv_usec - b.tv_usec⟩

namespace Libevent1

/-- The function `event_set`: the event takes the current base, the given
descriptor, events and argument, and the flags `EVLIST_INIT`; its priority is
the middle one of the current base. -/
def event_set (s : LibState) (ev : event) (fd events : Int) (arg : Nat) : event :=
  { ev with
    ev_base := s.current_base, ev_arg := some arg, ev_fd := fd, ev_events := events,
    ev_res := 0, ev_flags := EVLIST_INIT, ev_ncalls := 0,
    ev_pri := if s.current_base.isSome then Int.tdiv s.nactivequeues 2 else ev.ev_pri }

/-- The function `event_base_set`: only an event whose flags are exactly
`EVLIST_INIT` may be assigned a base. -/
def event_base_set (s : LibState) (base : Nat) (ev : event) : Int × event :=
  if ev.ev_flags ≠ EVLIST_INIT then (-1, ev)
  else (0, { ev with ev_base := some base, ev_pri := Int.tdiv s.nactivequeues 2 })

/-- The function `event_add`: an I/O or signal event not yet inserted or active
is registered with the backend and inserted; a timeout (re)enters the timer
queue with the deadline `now + tv`. -/
def event_add (s : LibState) (ev : event) (tv : Option timeval) : Int × LibState × event :=
  let register : Bool :=
    hasBits ev.ev_events (Int.lor (Int.lor EV_READ EV_WRITE) EV_SIGNAL) &&
      !hasBits ev.ev_flags (Int.lor EVLIST_INSERTED EVLIST_ACTIVE)
  let res : Int := if register then s.backend_add else 0
  let inserted : Bool := register && res != -1
  let s1 : LibState := if inserted then { s with event_count := s.event_count + 1 } else s
  let ev1 : event := if inserted then { ev with ev_flags := Int.lor ev.ev_flags EVLIST_INSERTED } else ev
  match tv with
  | some t =>
    if res != -1 then
      let had : Bool := hasBits ev1.ev_flags EVLIST_TIMEOUT
      let s2 : LibState := if had then s1 else { s1 with event_count := s1.event_count + 1 }
      let expired : Bool := hasBits ev1.ev_flags EVLIST_ACTIVE && hasBits ev1.ev_res EV_TIMEOUT
      let s3 : LibState :=
        if expired then { s2 with event_count := s2.event_count - 1,
                                  event_count_active := s2.event_count_active - 1 } else s2
      let flags1 : Int := if expired then clearBits ev1.ev_flags EVLIST_ACTIVE else ev1.ev_flags
      (res, s3, { ev1 with ev_flags := Int.lor flags1 EVLIST_TIMEOUT, ev_timeout := timeradd s.now t })
    else (res, s1, ev1)
  | Option.none => (res, s1, ev1)

/-- Removal of the event from the queue `queue` (`event_queue_remove`). -/
def queue_remove (s : LibState) (ev : event) (queue : Int) : LibState × event :=
  if hasBits ev.ev_flags queue then
    ({ s with event_count := s.event_count - 1,
              event_count_active :=
                if queue = EVLIST_ACTIVE then s.event_count_active - 1 else s.event_count_active },
     { ev with ev_flags := clearBits ev.ev_flags queue })
  else (s, ev)

/-- The function `event_del`: `-1` for an event without a base; otherwise the
event leaves the timer, active and inserted queues it is in, and the status is
that of the backend when it was inserted, `0` when it was not. -/
def event_del (s : LibState) (ev : event) : Int × LibState × event :=
  if ev.ev_base.isNone then (-1, s, ev)
  else
    let r1 := queue_remove s ev EVLIST_TIMEOUT
    let r2 := queue_remove r1.1 r1.2 EVLIST_ACTIVE
    if hasBits r2.2.ev_flags EVLIST_INSERTED then
      let r3 := queue_remove r2.1 r2.2 EVLIST_INSERTED
      (s.backend_del, r3.1, r3.2)
    else (0, r2.1, r2.2)

/-- The function `event_priority_set`. -/
def event_priority_set (s : LibState) (ev : event) (pri : Int) : Int × event :=
  if hasBits ev.ev_flags EVLIST_ACTIVE then (-1, ev)
  else if pri < 0 ∨ s.nactivequeues ≤ pri then (-1, ev)
  else (0, { ev with ev_pri := pri })

/-- The function `event_pending(ev, event, tv)`; `wantTv` is `tv != NULL`, the
second component what is stored into `*tv` if anything. -/
def event_pending (s : LibState) (ev : event) (evmask : Int) (wantTv : Bool) : Int × Option timeval :=
  let f1 : Int :=
    if hasBits ev.ev_flags EVLIST_INSERTED then
      Int.land ev.ev_events (Int.lor (Int.lor EV_READ EV_WRITE) EV_SIGNAL) else 0
  let f2 : Int := if hasBits ev.ev_flags EVLIST_ACTIVE then Int.lor f1 ev.ev_res else f1
  let flags : Int := if hasBits ev.ev_flags EVLIST_TIMEOUT then Int.lor f2 EV_TIMEOUT else f2
  let evmask1 : Int := Int.land evmask (Int.lor (Int.lor EV_TIMEOUT EV_READ) (Int.lor EV_WRITE EV_SIGNAL))
  let tv : Option timeval :=
    if wantTv && hasBits (Int.land flags evmask1) EV_TIMEOUT then
      some (timeradd s.now (timersub ev.ev_timeout s.now)) else Option.none
  (Int.land flags evmask1, tv)

/-- The function `event_base_priority_init`. -/
def event_base_priority_init (s : LibState) (_base : Nat) (npriorities : Int) : Int × LibState :=
  if s.event_count_active ≠ 0 then (-1, s) else (0, { s with nactivequeues := npriorities })

/-- The `while (!done)` loop of `event_base_loop`, one script entry per
multiplexing wait: the loop ends with `0` when the exit flag is set, with `1`
when no events are registered, with `-1` when the wait fails (as it does
beyond the end of the script); after a wake-up that activated events the
callbacks run (the events one wake-up activates share a priority, so none stays
active), and only `EVLOOP_ONCE` ends the loop; after one that activated none
only `EVLOOP_NONBLOCK` does. -/
def loopPasses (flags : Int) : List Pass → LibState → Int × LibState
  | [], s =>
    if s.event_gotterm then (0, { s with event_gotterm := false, script := [] })
    else if s.event_count ≤ 0 then (1, { s with script := [] })
    else (-1, { s with waits := s.waits + 1, script := [] })
  | p :: ps, s =>
    if s.event_gotterm then (0, { s with event_gotterm := false, script := p :: ps })
    else if s.event_count ≤ 0 then (1, { s with script := p :: ps })
    else
      match p with
      | Pass.failure => (-1, { s with waits := s.waits + 1, script := ps })
      | Pass.wake activated retired gotterm =>
        if 0 < activated then
          let s1 : LibState :=
            { s with waits := s.waits + 1, script := ps, event_count := s.event_count - retired,
                     event_count_active := 0, event_gotterm := gotterm }
          if hasBits flags EVLOOP_ONCE then (0, s1) else loopPasses flags ps s1
        else
          let s1 : LibState := { s with waits := s.waits + 1, script := ps }
          if hasBits flags EVLOOP_NONBLOCK then (0, s1) else loopPasses flags ps s1

/-- The function `event_base_loop`.  The effects of the callbacks on the
interpreter are not part of this instance. -/
def event_base_loop (s : LibState) (py : PyState) (_base : Nat) (flags : Int) :
    Int × LibState × PyState :=
  let r := loopPasses flags s.script s
  (r.1, r.2, py)

/-- The function `event_base_loopexit`: a one-shot timer that sets the exit flag
when it fires. -/
def event_base_loopexit (s : LibState) (_base : Nat) (_tv : timeval) : Int × LibState :=
  (0, { s with event_count := s.event_count + 1 })

end Libevent1

/-- The library instance. -/
def libevent1 : Libevent LibState where
  event_set := Libevent1.event_set
  event_base_set := Libevent1.event_base_set
  event_add := Libevent1.event_add
  event_del := Libevent1.event_del
  event_priority_set := Libevent1.event_priority_set
  event_pending := Libevent1.event_pending
  event_base_priority_init := Libevent1.event_base_priority_init
  event_base_loop := Libevent1.event_base_loop
  event_base_dispatch := fun s py base => Libevent1.event_base_loop s py base 0
  event_base_loopexit := Libevent1.event_base_loopexit
  errno := fun s => s.errno
  waits := fun s => s.waits

/-- The library state right after module initialisation: `event_init` has made
base `1` the current base and `EventBase_Init` has given it three priorities;
the backend accepts registrations; nothing is scripted. -/
def lib0 : LibState :=
  { current_base := some 1, nactivequeues := 3, event_count := 0, event_count_active := 0,
    event_gotterm := false, now := ⟨1000, 0⟩, backend_add := 0, backend_del := 0, errno := 0,
    waits := 0, script := [] }

/-- An interpreter state with nothing pending. -/
def py0 : PyState := { curexc := Option.none, stderr := [], exited := Option.none }

/-- No object met in the runs below has a `fileno()` method. -/
def noFileno : PyObj → Except PyExc Int := fun _ => Except.error PyExc.typeError

/-- The default event base object of the module. -/
def base0 : EventBaseObject := { id := 1, ev_base := 1 }

/-- A callable Python object. -/
def cb0 : PyObj := PyObj.obj 7 true

/-- The event `event.Event(5, EV_READ, cb0)` constructed directly: `Event_New`
followed by `Event_Init`, never bound to an `EventBase`. -/
def evDirect : EventObject :=
  (Event_Init libevent1 noFileno lib0 py0 (Event_New 2) [PyObj.int 5, PyObj.int EV_READ, cb0] []).2.2

/-- The state after `evDirect.addToLoop()` has succeeded on `lib0`. -/
def armedRun : EventCall LibState :=
  (Event_AddToLoop libevent1 lib0 py0 evDirect [] []).getD ⟨Option.none, lib0, py0, evDirect⟩

/-- A library state whose backend rejects registrations and removals with
`EBADF`, as for a closed descriptor. -/
def libBadFd : LibState := { lib0 with backend_add := -1, backend_del := -1, errno := 9 }

/-- Python code that raises `SystemExit(1)`, as a callback calling `sys.exit(1)` does. -/
def runSystemExit : CallbackRun := fun _ py ev => (Except.error (PyExc.systemExit 1), py, ev)

/-- A library state with two one-shot events registered, each of the next two
multiplexing waits making one of them ready. -/
def libTwoReady : LibState :=
  { lib0 with event_count := 2, script := [Pass.wake 1 1 false, Pass.wake 1 1 false] }

/-- The state after `evDirect.addToLoop(timeout=5.0)` has succeeded on `lib0`,
whose clock shows 1000 s: the event is in the timer queue with the deadline
1005 s. -/
def timedRun : EventCall LibState :=
  (Event_AddToLoop libevent1 lib0 py0 evDirect [] [("timeout", PyObj.float (Double.finite 5 0))]).getD
    ⟨Option.none, lib0, py0, evDirect⟩

/-- The armed event of `armedRun` once its descriptor has become readable:
libevent has put it on the active queue (`EVLIST_ACTIVE`, result `EV_READ`) and
its callback has not run yet. -/
def activeEv : EventObject :=
  { armedRun.self with
    ev := { armedRun.self.ev with
      ev_flags := Int.lor armedRun.self.ev.ev_flags EVLIST_ACTIVE, ev_res := EV_READ } }

/-- Python code of a callback that tells how it was called: it raises the
exception 42 when it is called as `cb0(5, EV_READ, <event 2>)` without keyword
arguments, and returns `None` on every other call. -/
def runProbe : CallbackRun := fun call py ev =>
  if call = ⟨cb0, [PyObj.int 5, PyObj.int EV_READ, PyObj.event 2], Option.none⟩ then
    (Except.error (PyExc.raised 42), py, ev)
  else (Except.ok PyObj.none, py, ev)

/-! ## Theorems -/

/-- Shared computation rule: once the arguments have parsed to `t` and the
timeout pointer `tv` is defined, `Event_AddToLoop` is decided by `event_add`. -/
theorem Event_AddToLoop_of_timeval {σ : Type} (L : Libevent σ) (lib : σ) (py : PyState)
    (self : EventObject) (args : List PyObj) (kwargs : List (String × PyObj)) (t : Double)
    (tv : Option timeval) (h1 : addToLoopTimeout args kwargs = Except.ok t)
    (h2 : addToLoopTimeval t = some tv) :
    Event_AddToLoop L lib py self args kwargs =
      some (if (L.event_add lib self.ev tv).1 ≠ 0 then
          ⟨Option.none, (L.event_add lib self.ev tv).2.1,
            PyErr_Set py (PyExc.eventErrno (L.errno (L.event_add lib self.ev tv).2.1)),
            { self with ev := (L.event_add lib self.ev tv).2.2 }⟩
        else
          ⟨some PyObj.none, (L.event_add lib self.ev tv).2.1, py,
            { self with ev := (L.event_add lib self.ev tv).2.2 }.incref⟩) := by
  simp only [Event_AddToLoop, h1, h2]
  split <;> rfl

/-- Shared frame rule: a failing `Event_AddToLoop` sets the error indicator and
leaves the reference count and the `eventBase` and `callback` fields alone. -/
theorem Event_AddToLoop_failure_frame {σ : Type} (L : Libevent σ) (lib : σ) (py : PyState)
    (self : EventObject) (args : List PyObj) (kwargs : List (String × PyObj)) (c : EventCall σ)
    (hc : Event_AddToLoop L lib py self args kwargs = some c) (hfail : c.result = Option.none) :
    c.py.curexc.isSome = true ∧ c.self.ob_refcnt = self.ob_refcnt ∧
      c.self.eventBase = self.eventBase ∧ c.self.callback = self.callback ∧ c.self.id = self.id := by
  unfold Event_AddToLoop at hc
  split at hc
  · cases hc
    simp [PyErr_Set]
  · split at hc
    · cases hc
    · simp only at hc
      split at hc
      · cases hc
        simp [PyErr_Set]
      · cases hc
        simp at hfail

/-- C1, counterexample: the directly constructed event `evDirect` was never
added to the loop, yet `removeFromLoop()` returns `None` without an error and
takes one reference away (here the last one). -/
theorem removeFromLoop_unarmed_succeeds :
    evDirect.ev.armed = false ∧
      Event_RemoveFromLoop libevent1 lib0 py0 evDirect
        = ⟨some PyObj.none, lib0, py0, { evDirect with ob_refcnt := evDirect.ob_refcnt - 1 }⟩ := by
  decide

/-- C1, amended: `removeFromLoop()` fails exactly when `event_del` reports a
negative status; a failing call raises `EventError` from `errno` and leaves the
reference count, `eventBase` and `callback` as they were, the library state and
the `struct event` being as `event_del` left them.  The binding makes no test
of its own whether the event is armed. -/
theorem removeFromLoop_fails_iff_event_del_fails {σ : Type} (L : Libevent σ) (lib : σ)
    (py : PyState) (self : EventObject) :
    ((Event_RemoveFromLoop L lib py self).result = Option.none ↔ (L.event_del lib self.ev).1 < 0) ∧
    ((Event_RemoveFromLoop L lib py self).result = Option.none →
      (Event_RemoveFromLoop L lib py self).py
          = PyErr_Set py (PyExc.eventErrno (L.errno (L.event_del lib self.ev).2.1)) ∧
        (Event_RemoveFromLoop L lib py self).self.ob_refcnt = self.ob_refcnt ∧
        (Event_RemoveFromLoop L lib py self).self.eventBase = self.eventBase ∧
        (Event_RemoveFromLoop L lib py self).self.callback = self.callback ∧
        (Event_RemoveFromLoop L lib py self).self.ev = (L.event_del lib self.ev).2.2 ∧
        (Event_RemoveFromLoop L lib py self).lib = (L.event_del lib self.ev).2.1) := by
  unfold Event_RemoveFromLoop
  by_cases h : (L.event_del lib self.ev).1 < 0
  · simp [h]
  · simp [h]

/-- C1, witness: an event object that was never initialised has no base, so
libevent's `event_del` fails and `removeFromLoop()` fails with the reference
count kept. -/
theorem removeFromLoop_fails_witness :
    (Event_RemoveFromLoop libevent1 lib0 py0 (Event_New 2)).result = Option.none ∧
      (Event_RemoveFromLoop libevent1 lib0 py0 (Event_New 2)).self.ob_refcnt = 1 :=
  ⟨(removeFromLoop_fails_iff_event_del_fails libevent1 lib0 py0 (Event_New 2)).1.2 (by decide),
   ((removeFromLoop_fails_iff_event_del_fails libevent1 lib0 py0 (Event_New 2)).2
      ((removeFromLoop_fails_iff_event_del_fails libevent1 lib0 py0 (Event_New 2)).1.2
        (by decide))).2.1⟩

/-- C2, counterexample: `armedRun.self` is armed (inserted by a first
`addToLoop()`), and a second `addToLoop()` returns `None` without an error and
takes a further reference. -/
theorem addToLoop_armed_succeeds :
    armedRun.self.ev.armed = true ∧
      Event_AddToLoop libevent1 armedRun.lib armedRun.py armedRun.self [] []
        = some ⟨some PyObj.none, armedRun.lib, armedRun.py,
            { armedRun.self with ob_refcnt := armedRun.self.ob_refcnt + 1 }⟩ := by
  decide

/-- C3, counterexample: `evDirect` was constructed directly and its `eventBase`
is `NULL`, yet `addToLoop()` returns `None`, inserts the event into the loop of
libevent's current base and takes a reference. -/
theorem addToLoop_unbound_succeeds :
    evDirect.eventBase = Option.none ∧
      (Event_AddToLoop libevent1 lib0 py0 evDirect [] []).map
          (fun c => (c.result, c.py.curexc, c.self.ob_refcnt, c.self.ev.armed, c.lib.event_count))
        = some (some PyObj.none, Option.none, evDirect.ob_refcnt + 1, true, 1) := by
  decide

/-- C3, amended: `addToLoop` never consults `eventBase`.  On an event never
bound to an `EventBase` it does what it does on a bound one, the field staying
as it is: the event is handed to `event_add` on the base `event_set` gave it.
When the call fails (argument parsing or `event_add` failed) an error is set
and the reference count of the unbound event is unchanged. -/
theorem addToLoop_ignores_eventBase {σ : Type} (L : Libevent σ) (lib : σ) (py : PyState)
    (self : EventObject) (args : List PyObj) (kwargs : List (String × PyObj)) :
    (∀ eb : Option EventBaseObject,
      Event_AddToLoop L lib py { self with eventBase := eb } args kwargs =
        (Event_AddToLoop L lib py self args kwargs).map
          (fun c => { c with self := { c.self with eventBase := eb } })) ∧
    (self.eventBase = Option.none →
      ∀ c, Event_AddToLoop L lib py self args kwargs = some c → c.result = Option.none →
        c.py.curexc.isSome = true ∧ c.self.ob_refcnt = self.ob_refcnt ∧
          c.self.eventBase = Option.none) := by
  constructor
  · intro eb
    simp only [Event_AddToLoop]
    generalize addToLoopTimeout args kwargs = parsed
    cases parsed with
    | error e => simp
    | ok t =>
      simp only []
      generalize addToLoopTimeval t = ptr
      cases ptr with
      | none => simp
      | some tv =>
        by_cases h : (L.event_add lib self.ev tv).1 = 0
        · simp [h, EventObject.incref]
        · simp [h]
  · intro hnull c hc hfail
    have h := Event_AddToLoop_failure_frame L lib py self args kwargs c hc hfail
    exact ⟨h.1, h.2.1, by rw [h.2.2.1, hnull]⟩

/-- C3, witness: with a backend that rejects the descriptor, `addToLoop()` on
the unbound `evDirect` fails and its reference count stays 1. -/
theorem addToLoop_unbound_failure_witness :
    ∃ c, Event_AddToLoop libevent1 libBadFd py0 evDirect [] [] = some c ∧
      c.result = Option.none ∧ c.py.curexc.isSome = true ∧ c.self.ob_refcnt = evDirect.ob_refcnt ∧
      c.self.eventBase = Option.none :=
  ⟨⟨Option.none, libBadFd, PyErr_Set py0 (PyExc.eventErrno 9), evDirect⟩, by decide, rfl,
    (addToLoop_ignores_eventBase libevent1 libBadFd py0 evDirect [] []).2 (by decide)
      ⟨Option.none, libBadFd, PyErr_Set py0 (PyExc.eventErrno 9), evDirect⟩ (by decide) rfl⟩

/-! ### Binary64 rounding -/

theorem bitLenAux_le (fuel : Nat) : ∀ n k : Nat, n < 2 ^ k → bitLenAux fuel n ≤ k := by
  induction fuel with
  | zero => intro n k _; simp [bitLenAux]
  | succ f ih =>
    intro n k h
    unfold bitLenAux
    split
    · exact Nat.zero_le k
    · rename_i hn
      cases k with
      | zero => simp at h; exact absurd h hn
      | succ k =>
        have h2 : n / 2 < 2 ^ k := by
          rw [pow_succ] at h
          omega
        have := ih (n / 2) k h2
        omega

theorem lt_two_pow_bitLenAux (fuel : Nat) : ∀ n : Nat, n ≤ fuel → n < 2 ^ bitLenAux fuel n := by
  induction fuel with
  | zero => intro n h; simp [bitLenAux]; omega
  | succ f ih =>
    intro n h
    unfold bitLenAux
    split
    · rename_i hn; simp [hn]
    · rename_i hn
      have h2 : n / 2 ≤ f := by omega
      have := ih (n / 2) h2
      rw [pow_succ]
      omega

/-- A number below `2^k` has at most `k` bits. -/
theorem bitLen_le {n k : Nat} (h : n < 2 ^ k) : bitLen n ≤ k := bitLenAux_le n n k h

/-- Every number is below two to its bit length. -/
theorem lt_two_pow_bitLen (n : Nat) : n < 2 ^ bitLen n := lt_two_pow_bitLenAux n n (Nat.le_refl n)

/-- Rounding to nearest moves the scaled quotient by at most half a unit. -/
theorem divRoundEven_near (a d : Nat) (hd : 0 < d) :
    2 * (divRoundEven a d * d) ≤ 2 * a + d ∧ 2 * a ≤ 2 * (divRoundEven a d * d) + d := by
  have h1 := Nat.div_add_mod a d
  have h2 := Nat.mod_lt a hd
  have h3 : d * (a / d) = a / d * d := Nat.mul_comm _ _
  unfold divRoundEven
  simp only []
  split
  · rename_i h
    rw [Nat.add_mul]
    rcases h with h | ⟨h, _⟩ <;> omega
  · rename_i h
    have h4 : ¬ d < 2 * (a % d) := fun hh => h (Or.inl hh)
    omega

/-- A value with at most 53 significant bits and an exponent in range is its
own rounding. -/
theorem roundNE_exact (M e : Int) (h1 : bitLen M.natAbs ≤ 53) (h2 : -1074 ≤ e)
    (h3 : (bitLen M.natAbs : Int) + e ≤ 1024) : roundNE M e = Double.finite M e := by
  have hs : max ((bitLen M.natAbs : Int) - 53) (-1074 - e) ≤ 0 := by
    apply max_le <;> omega
  unfold roundNE
  simp only [hs, if_true]
  have h4 : ¬ (1024 < (bitLen M.natAbs : Int) + e) := by omega
  rw [if_neg h4]
  congr 1
  split <;> omega

/-- A non-negative value with `53 + s` bits, `s > 0`, is rounded to the nearest
multiple of `2^s`. -/
theorem roundNE_inexact (a : Nat) (e : Int) (s : Nat) (hs : 0 < s) (hbl : bitLen a = 53 + s)
    (he : -1074 ≤ e) (hov : (bitLen (divRoundEven a (2 ^ s)) : Int) + (e + s) ≤ 1024) :
    roundNE (a : Int) e = Double.finite (divRoundEven a (2 ^ s) : Nat) (e + s) := by
  have hmax : max ((bitLen (a : Int).natAbs : Int) - 53) (-1074 - e) = (s : Int) := by
    rw [Int.natAbs_ofNat, hbl]
    have h53 : ((53 + s : Nat) : Int) - 53 = (s : Int) := by omega
    rw [h53]
    apply max_eq_left
    omega
  unfold roundNE
  simp only [hmax]
  have hpos : ¬ ((s : Int) ≤ 0) := by omega
  simp only [hpos, if_false, Int.natAbs_ofNat, Int.toNat_ofNat]
  have h4 : ¬ (1024 < (bitLen (divRoundEven a (2 ^ s)) : Int) + (e + s)) := by omega
  rw [if_neg h4]
  have h5 : ¬ ((a : Int) < 0) := by omega
  rw [if_neg h5]

/-- The conversion to `long` of a non-negative double with a negative
exponent is the integer quotient. -/
theorem toLong_neg_exp (q k : Nat) (hk : 0 < k) (hq : q / 2 ^ k < 2 ^ 63) :
    (Double.finite (q : Int) (-(k : Int))).toLong = some ((q / 2 ^ k : Nat) : Int) := by
  have h1 : ¬ (0 ≤ -(k : Int)) := by omega
  have h2 : (- -(k : Int)).toNat = k := by omega
  have h3 : Int.tdiv (q : Int) (2 ^ k) = ((q / 2 ^ k : Nat) : Int) := by
    rw [Int.ofNat_tdiv]
    push_cast
    rfl
  have h4 : ((q / 2 ^ k : Nat) : Int) < 2 ^ 63 := by exact_mod_cast hq
  have h5 : -(2 : Int) ^ 63 ≤ ((q / 2 ^ k : Nat) : Int) := by
    have : (0 : Int) ≤ ((q / 2 ^ k : Nat) : Int) := Int.ofNat_nonneg _
    omega
  unfold Double.toLong
  simp only [h1, if_false, h2, h3]
  rw [if_pos ⟨h5, h4⟩]

/-- The microseconds computed from a fraction `r * 2^(-k)` below one: the
product with `1000000` is rounded to binary64 and truncated.  The result `u` is
below a million, the exact product is below `u + 1`, and `u` exceeds the
exact product by at most `2^(-34)`. -/
theorem usec_of_fraction (r k : Nat) (hk1 : 1 ≤ k) (hk2 : k ≤ 1074) (hr : r < 2 ^ k)
    (hr53 : r < 2 ^ 53) :
    ∃ u : Nat, ((Double.finite (r : Int) (-(k : Int))).mul (Double.finite 1000000 0)).toLong
        = some (u : Int) ∧ u < 1000000 ∧ r * 1000000 < (u + 1) * 2 ^ k ∧
      u * 2 ^ k * 2 ^ 34 ≤ r * 1000000 * 2 ^ 34 + 2 ^ k := by
  have hmul : (Double.finite (r : Int) (-(k : Int))).mul (Double.finite 1000000 0)
      = roundNE ((r * 1000000 : Nat) : Int) (-(k : Int)) := by
    simp only [Double.mul, add_zero]
    push_cast
    rfl
  rw [hmul]
  have hkpos : 0 < 2 ^ k := Nat.two_pow_pos k
  have hr1 : r + 1 ≤ 2 ^ k := hr
  have ha : r * 1000000 + 1000000 ≤ 1000000 * 2 ^ k := by nlinarith
  generalize hadef : r * 1000000 = a at ha ⊢
  by_cases hbl : bitLen a ≤ 53
  · -- the product is exact
    have hex := roundNE_exact ((a : Nat) : Int) (-(k : Int))
      (by rw [Int.natAbs_ofNat]; exact hbl) (by omega) (by rw [Int.natAbs_ofNat]; omega)
    rw [hex]
    have hdiv : a / 2 ^ k < 1000000 := (Nat.div_lt_iff_lt_mul hkpos).2 (by omega)
    have hdm := Nat.div_add_mod a (2 ^ k)
    have hml := Nat.mod_lt a hkpos
    refine ⟨a / 2 ^ k, toLong_neg_exp _ k (by omega) (by omega), hdiv, ?_, ?_⟩
    · nlinarith
    · have h1 : a / 2 ^ k * 2 ^ k ≤ a := Nat.div_mul_le_self a (2 ^ k)
      nlinarith
  · -- the product has 53 + s bits and is rounded
    obtain ⟨s, hs⟩ : ∃ s, bitLen a = 53 + s := ⟨bitLen a - 53, by omega⟩
    have hspos : 0 < s := by omega
    have h20 : (1000000 : Nat) < 2 ^ 20 := by norm_num
    have hak : a < 2 ^ (20 + k) := by
      rw [pow_add]
      nlinarith
    have ha73 : a < 2 ^ 73 := by
      have : (2 : Nat) ^ 73 = 2 ^ 20 * 2 ^ 53 := by norm_num
      rw [this, ← hadef]
      nlinarith
    have hsk : s + 33 ≤ k := by
      have := bitLen_le hak
      omega
    have hs20 : s ≤ 20 := by
      have := bitLen_le ha73
      omega
    have hdpos : 0 < 2 ^ s := Nat.two_pow_pos s
    have hDpos : 0 < 2 ^ (k - s) := Nat.two_pow_pos (k - s)
    have hdD : 2 ^ s * 2 ^ (k - s) = 2 ^ k := by
      rw [← pow_add]
      congr 1
      omega
    have hd20 : 2 ^ s ≤ 2 ^ 20 := Nat.pow_le_pow_right (by norm_num) hs20
    have h33 : 2 ^ s * 2 ^ 33 ≤ 2 ^ k := by
      rw [← pow_add]
      exact Nat.pow_le_pow_right (by norm_num) hsk
    obtain ⟨hn1, hn2⟩ := divRoundEven_near a (2 ^ s) hdpos
    generalize hqdef : divRoundEven a (2 ^ s) = q at hn1 hn2
    generalize hd : 2 ^ s = d at hdpos hdD hd20 h33 hn1 hn2 hqdef
    generalize hD : 2 ^ (k - s) = D at hDpos hdD
    generalize hP : 2 ^ k = P at hkpos hr1 ha hdD h33
    have hqd : q ≤ q * d := Nat.le_mul_of_pos_right q hdpos
    have hq74 : q < 2 ^ 74 := by
      have h1 : (2 : Nat) ^ 74 = 2 ^ 73 + 2 ^ 73 := by norm_num
      have h2 : (2 : Nat) ^ 20 ≤ 2 ^ 73 := by norm_num
      omega
    have hov : (bitLen q : Int) + (-(k : Int) + s) ≤ 1024 := by
      have := bitLen_le hq74
      omega
    have hrd := roundNE_inexact a (-(k : Int)) s hspos hs (by omega) (by rw [hd, hqdef]; exact hov)
    rw [hd, hqdef] at hrd
    have hexp : (-(k : Int) + s) = -((k - s : Nat) : Int) := by omega
    rw [hrd, hexp]
    have hqlt : q * d < 1000000 * P := by
      have h2 : (2 : Nat) ^ 20 < 2 * 1000000 := by norm_num
      omega
    have hqD : q < 1000000 * D := by
      have h1 : q * d < 1000000 * D * d := by
        have : 1000000 * D * d = 1000000 * (d * D) := by ring
        rw [this, hdD]
        exact hqlt
      exact Nat.lt_of_mul_lt_mul_right h1
    have hu : q / D < 1000000 := (Nat.div_lt_iff_lt_mul hDpos).2 hqD
    have hdm := Nat.div_add_mod q D
    have hml := Nat.mod_lt q hDpos
    refine ⟨q / D, ?_, hu, ?_, ?_⟩
    · rw [← hD]
      apply toLong_neg_exp q (k - s) (by omega)
      rw [hD]
      omega
    · generalize q / D = u at hdm hu ⊢
      have h0 : (u + 1) * D = D * u + D := by ring
      have h1 : q + 1 ≤ (u + 1) * D := by omega
      have h2 : (q + 1) * d ≤ (u + 1) * D * d := Nat.mul_le_mul_right d h1
      have h3 : (u + 1) * D * d = (u + 1) * P := by rw [← hdD]; ring
      have h4 : (q + 1) * d = q * d + d := by ring
      rw [h3, h4] at h2
      generalize (u + 1) * P = X at h2 ⊢
      generalize q * d = Y at h2 hn2
      omega
    · generalize q / D = u at hdm hu ⊢
      have h0 : u * D = D * u := by ring
      have h1 : u * D ≤ q := by omega
      have h2 : u * D * d ≤ q * d := Nat.mul_le_mul_right d h1
      have h3 : u * D * d = u * P := by rw [← hdD]; ring
      rw [h3] at h2
      have h4 : (2 : Nat) ^ 34 = 2 * 2 ^ 33 := by norm_num
      have h5 : u * P * 2 ^ 34 = 2 * (u * P) * 2 ^ 33 := by rw [h4]; ring
      have h6 : a * 2 ^ 34 + P = 2 * a * 2 ^ 33 + P := by rw [h4]; ring
      rw [h5, h6]
      have h7 : 2 * (u * P) ≤ 2 * a + d := by
        generalize u * P = X at h2 ⊢
        generalize q * d = Y at h2 hn1
        omega
      have h8 : 2 * (u * P) * 2 ^ 33 ≤ (2 * a + d) * 2 ^ 33 := Nat.mul_le_mul_right _ h7
      have h9 : (2 * a + d) * 2 ^ 33 = 2 * a * 2 ^ 33 + d * 2 ^ 33 := by ring
      omega

/-- Rounding to nearest is exact on multiples. -/
theorem divRoundEven_mul (q d : Nat) (hd : 0 < d) : divRoundEven (q * d) d = q := by
  unfold divRoundEven
  simp only [Nat.mul_div_cancel _ hd, Nat.mul_mod_left]
  have h : ¬ (d < 2 * 0 ∨ (2 * 0 = d ∧ q % 2 = 1)) := by omega
  rw [if_neg h]

/-- `secondsToTimeval` on a non-negative double with a negative exponent: the
seconds are the integer quotient of the mantissa, the microseconds come from
the remainder. -/
theorem secondsToTimeval_neg_exp (m k : Nat) (hm : m < 2 ^ 53) (hk1 : 1 ≤ k) (hk2 : k ≤ 1074) :
    ∃ u : Nat, secondsToTimeval (Double.finite (m : Int) (-(k : Int)))
        = some ⟨((m / 2 ^ k : Nat) : Int), (u : Int)⟩ ∧ u < 1000000 ∧
      (m % 2 ^ k) * 1000000 < (u + 1) * 2 ^ k ∧
      u * 2 ^ k * 2 ^ 34 ≤ (m % 2 ^ k) * 1000000 * 2 ^ 34 + 2 ^ k := by
  have hkpos : 0 < 2 ^ k := Nat.two_pow_pos k
  have hsec53 : m / 2 ^ k < 2 ^ 53 := lt_of_le_of_lt (Nat.div_le_self m (2 ^ k)) hm
  have hr53 : m % 2 ^ k < 2 ^ 53 := lt_of_le_of_lt (Nat.mod_le m (2 ^ k)) hm
  have hlong : (Double.finite (m : Int) (-(k : Int))).toLong = some ((m / 2 ^ k : Nat) : Int) :=
    toLong_neg_exp m k (by omega) (by omega)
  have hof : Double.ofLong ((m / 2 ^ k : Nat) : Int) = Double.finite ((m / 2 ^ k : Nat) : Int) 0 := by
    have hb := bitLen_le hsec53
    exact roundNE_exact _ 0 (by rw [Int.natAbs_ofNat]; exact hb) (by omega)
      (by rw [Int.natAbs_ofNat]; omega)
  have hsub : (Double.finite (m : Int) (-(k : Int))).sub (Double.finite ((m / 2 ^ k : Nat) : Int) 0)
      = Double.finite ((m % 2 ^ k : Nat) : Int) (-(k : Int)) := by
    have hmin : min (-(k : Int)) 0 = -(k : Int) := min_eq_left (by omega)
    have h1 : (-(k : Int) - -(k : Int)).toNat = 0 := by omega
    have h2 : ((0 : Int) - -(k : Int)).toNat = k := by omega
    have hM : (m : Int) * 2 ^ 0 - ((m / 2 ^ k : Nat) : Int) * 2 ^ k = ((m % 2 ^ k : Nat) : Int) := by
      have := Nat.div_add_mod m (2 ^ k)
      have h3 : ((2 ^ k * (m / 2 ^ k) + m % 2 ^ k : Nat) : Int) = (m : Int) := by exact_mod_cast this
      push_cast at h3 ⊢
      linarith
    simp only [Double.sub, hmin, h1, h2, hM]
    have hb := bitLen_le hr53
    exact roundNE_exact _ _ (by rw [Int.natAbs_ofNat]; exact hb) (by omega)
      (by rw [Int.natAbs_ofNat]; omega)
  obtain ⟨u, hu1, hu2, hu3, hu4⟩ := usec_of_fraction (m % 2 ^ k) k hk1 hk2 (Nat.mod_lt m hkpos) hr53
  refine ⟨u, ?_, hu2, hu3, hu4⟩
  simp only [secondsToTimeval, hlong, hof, hsub, hu1]

theorem roundNE_zero (e : Int) (h1 : -1074 ≤ e) (h2 : e ≤ 1024) :
    roundNE 0 e = Double.finite 0 e :=
  roundNE_exact 0 e (by decide) h1 (by simpa [bitLen, bitLenAux] using h2)

theorem toLong_zero (e : Int) : (Double.finite 0 e).toLong = some 0 := by
  unfold Double.toLong
  by_cases h : 0 ≤ e <;> simp [h]

/-- A zero fraction yields zero microseconds. -/
theorem usec_of_zero (e : Int) (h1 : 0 ≤ e) (h2 : e ≤ 1024) :
    ((Double.finite 0 e).mul (Double.finite 1000000 0)).toLong = some 0 := by
  have h : (Double.finite 0 e).mul (Double.finite 1000000 0) = roundNE 0 e := by
    simp [Double.mul]
  rw [h, roundNE_zero e (by omega) h2, toLong_zero]

/-- `secondsToTimeval` on a non-negative double with a non-negative exponent,
an integer: the seconds are that integer, the microseconds zero. -/
theorem secondsToTimeval_nonneg_exp (m n : Nat) (hm : m < 2 ^ 53) (hn : n ≤ 971)
    (hlong : m * 2 ^ n < 2 ^ 63) :
    secondsToTimeval (Double.finite (m : Int) (n : Int)) = some ⟨((m * 2 ^ n : Nat) : Int), 0⟩ := by
  have htl : (Double.finite (m : Int) (n : Int)).toLong = some ((m * 2 ^ n : Nat) : Int) := by
    have h1 : (0 : Int) ≤ (n : Int) := Int.ofNat_nonneg n
    have h2 : ((m * 2 ^ n : Nat) : Int) < 2 ^ 63 := by exact_mod_cast hlong
    have h3 : -(2 : Int) ^ 63 ≤ ((m * 2 ^ n : Nat) : Int) := by
      have : (0 : Int) ≤ ((m * 2 ^ n : Nat) : Int) := Int.ofNat_nonneg _
      omega
    have h4 : (m : Int) * 2 ^ (n : Int).toNat = ((m * 2 ^ n : Nat) : Int) := by
      rw [Int.toNat_ofNat]
      push_cast
      rfl
    unfold Double.toLong
    simp only [h1, if_true, h4]
    rw [if_pos ⟨h3, h2⟩]
  have hfrac : ∃ e : Int, 0 ≤ e ∧ e ≤ 1024 ∧
      (Double.finite (m : Int) (n : Int)).sub (Double.ofLong ((m * 2 ^ n : Nat) : Int))
        = Double.finite 0 e := by
    by_cases hbl : bitLen (m * 2 ^ n) ≤ 53
    · have hof : Double.ofLong ((m * 2 ^ n : Nat) : Int) = Double.finite ((m * 2 ^ n : Nat) : Int) 0 :=
        roundNE_exact _ 0 (by rw [Int.natAbs_ofNat]; exact hbl) (by omega)
          (by rw [Int.natAbs_ofNat]; omega)
      refine ⟨0, le_refl 0, by omega, ?_⟩
      have hmin : min (n : Int) 0 = 0 := min_eq_right (Int.ofNat_nonneg n)
      have h1 : ((n : Int) - 0).toNat = n := by omega
      have h2 : ((0 : Int) - 0).toNat = 0 := by omega
      have hM : (m : Int) * 2 ^ n - ((m * 2 ^ n : Nat) : Int) * 2 ^ 0 = 0 := by
        push_cast
        ring
      rw [hof]
      simp only [Double.sub, hmin, h1, h2, hM]
      exact roundNE_zero 0 (by omega) (by omega)
    · obtain ⟨s, hs⟩ : ∃ s, bitLen (m * 2 ^ n) = 53 + s := ⟨bitLen (m * 2 ^ n) - 53, by omega⟩
      have hspos : 0 < s := by omega
      have hs10 : s ≤ 10 := by
        have := bitLen_le hlong
        omega
      by_cases hsn : s ≤ n
      · have hsplit : m * 2 ^ n = m * 2 ^ (n - s) * 2 ^ s := by
          rw [Nat.mul_assoc, ← pow_add]
          congr 2
          omega
        have hq : divRoundEven (m * 2 ^ n) (2 ^ s) = m * 2 ^ (n - s) := by
          rw [hsplit]
          exact divRoundEven_mul _ _ (Nat.two_pow_pos s)
        have hqle : m * 2 ^ (n - s) < 2 ^ 63 := by
          have : m * 2 ^ (n - s) ≤ m * 2 ^ (n - s) * 2 ^ s :=
            Nat.le_mul_of_pos_right _ (Nat.two_pow_pos s)
          omega
        have hof : Double.ofLong ((m * 2 ^ n : Nat) : Int)
            = Double.finite ((m * 2 ^ (n - s) : Nat) : Int) (0 + s) := by
          have := roundNE_inexact (m * 2 ^ n) 0 s hspos hs (by omega)
            (by rw [hq]; have := bitLen_le hqle; omega)
          rw [hq] at this
          exact this
        refine ⟨(s : Int), Int.ofNat_nonneg s, by omega, ?_⟩
        have hmin : min (n : Int) (0 + s) = (s : Int) := by
          rw [zero_add]
          exact min_eq_right (by omega)
        have h1 : ((n : Int) - s).toNat = n - s := by omega
        have h2 : (((0 : Int) + s) - s).toNat = 0 := by omega
        have hM : (m : Int) * 2 ^ (n - s) - ((m * 2 ^ (n - s) : Nat) : Int) * 2 ^ 0 = 0 := by
          push_cast
          ring
        rw [hof]
        simp only [Double.sub, hmin, h1, h2, hM]
        exact roundNE_zero s (by omega) (by omega)
      · -- more than `53 + n` bits would contradict `m < 2^53`
        exfalso
        have h1 : m * 2 ^ n < 2 ^ (53 + n) := by
          rw [pow_add]
          exact Nat.mul_lt_mul_of_pos_right hm (Nat.two_pow_pos n)
        have := bitLen_le h1
        omega
  obtain ⟨e, he1, he2, hsub⟩ := hfrac
  simp only [secondsToTimeval, htl, hsub, usec_of_zero e he1 he2]

/-- For a binary64 timeout `t >= 0` whose integer part fits a `long` both
conversions of lines 426-427 are defined, so a timeval is handed over. -/
theorem addToLoopTimeval_defined (m e : Int) (hb : (Double.finite m e).IsBinary64) (hm : 0 ≤ m)
    (hlong : (Double.finite m e).toRat < 2 ^ 63) :
    ∃ tv : timeval, addToLoopTimeval (Double.finite m e) = some (some tv) := by
  obtain ⟨hb1, hb2, hb3⟩ := hb
  obtain ⟨mn, rfl⟩ := Int.eq_ofNat_of_zero_le hm
  rw [Int.natAbs_ofNat] at hb1
  have hge : (Double.finite (mn : Int) e).geZero = true := by simp [Double.geZero]
  by_cases he : 0 ≤ e
  · obtain ⟨n, rfl⟩ := Int.eq_ofNat_of_zero_le he
    have hval : (Double.finite (mn : Int) (n : Int)).toRat = ((mn * 2 ^ n : Nat) : ℚ) := by
      simp only [Double.toRat, zpow_natCast]
      push_cast
      rfl
    rw [hval] at hlong
    have hl : mn * 2 ^ n < 2 ^ 63 := by exact_mod_cast hlong
    have hs := secondsToTimeval_nonneg_exp mn n hb1 (by omega) hl
    exact ⟨⟨((mn * 2 ^ n : Nat) : Int), 0⟩,
      by simp only [addToLoopTimeval, hge, if_true, hs, Option.map]⟩
  · obtain ⟨k, hk⟩ : ∃ k : Nat, e = -(k : Int) := ⟨(-e).toNat, by omega⟩
    subst hk
    obtain ⟨u, hs, -⟩ := secondsToTimeval_neg_exp mn k hb1 (by omega) (by omega)
    exact ⟨⟨((mn / 2 ^ k : Nat) : Int), (u : Int)⟩,
      by simp only [addToLoopTimeval, hge, if_true, hs, Option.map]⟩

/-- The doubles `2^53 * 2^s`, `1 <= s <= 9`, in the form the conversion of a
Python integer can give them, are handed over as whole seconds. -/
theorem addToLoopTimeval_carry (s : Nat) (h1 : 1 ≤ s) (h2 : s ≤ 9) :
    addToLoopTimeval (Double.finite (2 ^ 53) (s : Int)) = some (some ⟨2 ^ 53 * 2 ^ s, 0⟩) := by
  interval_cases s <;> decide

/-- The double a Python integer `0 <= n < 2^63` converts to is a binary64 datum
with at most 53 significant bits, or `2^53 * 2^s` with `1 <= s <= 10` when the
rounding carried. -/
theorem int_timeout_shape (n : Int) (h0 : 0 ≤ n) (h63 : n < 2 ^ 63) :
    (∃ m e, roundNE n 0 = Double.finite m e ∧ (Double.finite m e).IsBinary64 ∧ 0 ≤ m) ∨
      ∃ s : Nat, 1 ≤ s ∧ s ≤ 10 ∧ roundNE n 0 = Double.finite (2 ^ 53) (s : Int) := by
  obtain ⟨a, rfl⟩ := Int.eq_ofNat_of_zero_le h0
  have ha63 : a < 2 ^ 63 := by exact_mod_cast h63
  have hb63 := bitLen_le ha63
  by_cases hbl : bitLen a ≤ 53
  · left
    have hex := roundNE_exact (a : Int) 0 (by rw [Int.natAbs_ofNat]; exact hbl) (by omega)
      (by rw [Int.natAbs_ofNat]; omega)
    have ha53 : a < 2 ^ 53 :=
      lt_of_lt_of_le (lt_two_pow_bitLen a) (Nat.pow_le_pow_right (by norm_num) hbl)
    exact ⟨(a : Int), 0, hex, ⟨by rw [Int.natAbs_ofNat]; exact ha53, by omega, by omega⟩,
      Int.ofNat_nonneg a⟩
  · obtain ⟨s, hs⟩ : ∃ s, bitLen a = 53 + s := ⟨bitLen a - 53, by omega⟩
    have hspos : 0 < s := by omega
    have hs10 : s ≤ 10 := by omega
    have hdpos : 0 < 2 ^ s := Nat.two_pow_pos s
    have halt : a < 2 ^ 53 * 2 ^ s := by
      rw [← pow_add, ← hs]
      exact lt_two_pow_bitLen a
    obtain ⟨hn1, -⟩ := divRoundEven_near a (2 ^ s) hdpos
    have hq : divRoundEven a (2 ^ s) ≤ 2 ^ 53 := by
      by_contra hcon
      have h1 : 2 ^ 53 + 1 ≤ divRoundEven a (2 ^ s) := by omega
      have h2 : (2 ^ 53 + 1) * 2 ^ s ≤ divRoundEven a (2 ^ s) * 2 ^ s :=
        Nat.mul_le_mul_right _ h1
      have h3 : (2 ^ 53 + 1) * 2 ^ s = 2 ^ 53 * 2 ^ s + 2 ^ s := by ring
      generalize divRoundEven a (2 ^ s) * 2 ^ s = X at hn1 h2
      generalize (2 : Nat) ^ 53 * 2 ^ s = Y at halt h3
      omega
    have hq54 : divRoundEven a (2 ^ s) < 2 ^ 54 := by
      have : (2 : Nat) ^ 53 < 2 ^ 54 := by norm_num
      omega
    have hov : (bitLen (divRoundEven a (2 ^ s)) : Int) + (0 + s) ≤ 1024 := by
      have := bitLen_le hq54
      omega
    have hrd := roundNE_inexact a 0 s hspos hs (by omega) hov
    rw [zero_add] at hrd
    by_cases hq53 : divRoundEven a (2 ^ s) < 2 ^ 53
    · left
      exact ⟨_, _, hrd, ⟨by rw [Int.natAbs_ofNat]; exact hq53, by omega, by omega⟩,
        Int.ofNat_nonneg _⟩
    · right
      have heq : divRoundEven a (2 ^ s) = 2 ^ 53 := by omega
      refine ⟨s, hspos, hs10, ?_⟩
      rw [hrd, heq]
      push_cast
      rfl

/-- C2, amended: for every event, armed or not, and every timeout whose
conversion to `long` is defined (every negative timeout, minus infinity, NaN,
the default of an omitted argument, and every timeout `t >= 0` whose integer
part is below `2^63`, given as a binary64 float or as a Python integer
converted to one), `addToLoop` fails exactly when argument parsing fails or
`event_add` reports a non-zero status; a failing call sets an error and takes
no reference, the reference count, `eventBase` and `callback` staying as they
were.  The binding makes no test of its own whether the event is already
armed.  Where the C conversions of lines 426-427 are undefined, and only
there, nothing is stated. -/
theorem addToLoop_fails_iff_event_add_fails {σ : Type} (L : Libevent σ) (lib : σ) (py : PyState)
    (self : EventObject) (args : List PyObj) (kwargs : List (String × PyObj)) :
    (∀ c, Event_AddToLoop L lib py self args kwargs = some c → c.result = Option.none →
      c.py.curexc.isSome = true ∧ c.self.ob_refcnt = self.ob_refcnt ∧
        c.self.eventBase = self.eventBase ∧ c.self.callback = self.callback) ∧
    (∀ e, addToLoopTimeout args kwargs = Except.error e →
      Event_AddToLoop L lib py self args kwargs = some ⟨Option.none, lib, PyErr_Set py e, self⟩) ∧
    (∀ t, addToLoopTimeout args kwargs = Except.ok t →
      (t.geZero = false ∨
        (∃ m e, t = Double.finite m e ∧ t.IsBinary64 ∧ 0 ≤ m ∧ t.toRat < 2 ^ 63) ∨
        (∃ n : Int, 0 ≤ n ∧ n < 2 ^ 63 ∧ t = roundNE n 0 ∧ t.toRat < 2 ^ 63)) →
      ∃ tv c, addToLoopTimeval t = some tv ∧ Event_AddToLoop L lib py self args kwargs = some c ∧
        (c.result = Option.none ↔ (L.event_add lib self.ev tv).1 ≠ 0)) ∧
    (∀ t tv, addToLoopTimeout args kwargs = Except.ok t → addToLoopTimeval t = some tv →
      ∃ c, Event_AddToLoop L lib py self args kwargs = some c ∧
        (c.result = Option.none ↔ (L.event_add lib self.ev tv).1 ≠ 0)) ∧
    (Event_AddToLoop L lib py self args kwargs = Option.none ↔
      ∃ t, addToLoopTimeout args kwargs = Except.ok t ∧ addToLoopTimeval t = Option.none) := by
  have hcond : ∀ t tv, addToLoopTimeout args kwargs = Except.ok t → addToLoopTimeval t = some tv →
      ∃ c, Event_AddToLoop L lib py self args kwargs = some c ∧
        (c.result = Option.none ↔ (L.event_add lib self.ev tv).1 ≠ 0) := by
    intro t tv h1 h2
    refine ⟨_, Event_AddToLoop_of_timeval L lib py self args kwargs t tv h1 h2, ?_⟩
    by_cases h : (L.event_add lib self.ev tv).1 = 0
    · simp [h]
    · simp [h]
  refine ⟨?_, ?_, ?_, hcond, ?_⟩
  · intro c hc hfail
    have h := Event_AddToLoop_failure_frame L lib py self args kwargs c hc hfail
    exact ⟨h.1, h.2.1, h.2.2.1, h.2.2.2.1⟩
  · intro e he
    simp only [Event_AddToLoop, he]
  · intro t h1 hdom
    have hdef : ∃ tv, addToLoopTimeval t = some tv := by
      rcases hdom with hneg | ⟨m, e, rfl, hb, hm, hlong⟩ | ⟨n, hn0, hn63, rfl, hlong⟩
      · exact ⟨Option.none, by simp only [addToLoopTimeval, hneg]; rfl⟩
      · obtain ⟨tv, htv⟩ := addToLoopTimeval_defined m e hb hm hlong
        exact ⟨some tv, htv⟩
      · rcases int_timeout_shape n hn0 hn63 with ⟨m, e, heq, hb, hm⟩ | ⟨s, hs1, hs10, heq⟩
        · rw [heq] at hlong ⊢
          obtain ⟨tv, htv⟩ := addToLoopTimeval_defined m e hb hm hlong
          exact ⟨some tv, htv⟩
        · rw [heq] at hlong ⊢
          have hs9 : s ≤ 9 := by
            by_contra hcon
            have h10 : s = 10 := by omega
            subst h10
            simp only [Double.toRat] at hlong
            norm_num at hlong
          exact ⟨_, addToLoopTimeval_carry s hs1 hs9⟩
    obtain ⟨tv, htv⟩ := hdef
    obtain ⟨c, hc, hiff⟩ := hcond t tv h1 htv
    exact ⟨tv, c, htv, hc, hiff⟩
  · constructor
    · intro hnone
      cases h1 : addToLoopTimeout args kwargs with
      | error e => simp [Event_AddToLoop, h1] at hnone
      | ok t =>
        cases h2 : addToLoopTimeval t with
        | none => exact ⟨t, rfl, h2⟩
        | some tv =>
          rw [Event_AddToLoop_of_timeval L lib py self args kwargs t tv h1 h2] at hnone
          cases hnone
    · rintro ⟨t, h1, h2⟩
      simp only [Event_AddToLoop, h1, h2]

/-- C2, witness: on the armed event a second `addToLoop(2.5)` hands the timeval
`(2, 500000)` to `event_add` and is decided by its status. -/
theorem addToLoop_fails_iff_witness :
    ∃ tv c, addToLoopTimeval (Double.finite 5 (-1)) = some tv ∧
      Event_AddToLoop libevent1 armedRun.lib armedRun.py armedRun.self
        [PyObj.float (Double.finite 5 (-1))] [] = some c ∧
      (c.result = Option.none ↔ (libevent1.event_add armedRun.lib armedRun.self.ev tv).1 ≠ 0) :=
  (addToLoop_fails_iff_event_add_fails libevent1 armedRun.lib armedRun.py armedRun.self
    [PyObj.float (Double.finite 5 (-1))] []).2.2.1
    (Double.finite 5 (-1)) (by decide)
    (Or.inr (Or.inl ⟨5, -1, rfl, by simp only [Double.IsBinary64]; decide, by decide,
      by simp only [Double.toRat]; norm_num⟩))

/-- C4, counterexample: for the double nearest to `0.03`, which lies below
`0.03`, the timeval handed to `event_add` is `(0, 30000)`, more than the
timeout itself: the product with `1000000` is rounded up to `30000.0` before it
is truncated. -/
theorem addToLoopTimeval_not_truncation :
    (Double.finite 1080863910568919 (-55)).IsBinary64 ∧
      (Double.finite 1080863910568919 (-55)).geZero = true ∧
      addToLoopTimeval (Double.finite 1080863910568919 (-55)) = some (some ⟨0, 30000⟩) ∧
      ¬ ((0 : ℚ) * 10 ^ 6 + 30000 ≤ (Double.finite 1080863910568919 (-55)).toRat * 10 ^ 6) := by
  refine ⟨?_, by decide, by decide, ?_⟩
  · simp only [Double.IsBinary64]
    decide
  · simp only [Double.toRat]
    norm_num

/-- C4, amended: for a binary64 timeout `t >= 0` whose integer part fits a
`long`, the timeval handed to `event_add` has `tv_sec = floor(t)` and
`0 <= tv_usec < 1000000`, and `tv_sec*10^6 + tv_usec - 2^(-34) <= t*10^6 <
tv_sec*10^6 + tv_usec + 1`: the microseconds are the truncation of the
binary64 product `(t - floor(t)) * 1000000`, which rounding can lift to the
next integer.  For every negative `t`, for minus infinity and for the default
`-1.0` of an omitted argument, `NULL` is handed over. -/
theorem addToLoopTimeval_spec (m e : Int) (hb : (Double.finite m e).IsBinary64) (hm : 0 ≤ m)
    (hlong : (Double.finite m e).toRat < 2 ^ 63) :
    (∃ tv : timeval, addToLoopTimeval (Double.finite m e) = some (some tv) ∧
      tv.tv_sec = ⌊(Double.finite m e).toRat⌋ ∧ 0 ≤ tv.tv_usec ∧ tv.tv_usec < 1000000 ∧
      (tv.tv_sec : ℚ) * 10 ^ 6 + tv.tv_usec - 1 / 2 ^ 34 ≤ (Double.finite m e).toRat * 10 ^ 6 ∧
      (Double.finite m e).toRat * 10 ^ 6 < (tv.tv_sec : ℚ) * 10 ^ 6 + tv.tv_usec + 1) ∧
    (∀ m1 e1 : Int, m1 < 0 → addToLoopTimeval (Double.finite m1 e1) = some Option.none) ∧
    addToLoopTimeval (Double.inf true) = some Option.none ∧
    addToLoopTimeout [] [] = Except.ok (Double.finite (-1) 0) := by
  refine ⟨?_, ?_, by decide, by decide⟩
  · obtain ⟨hb1, hb2, hb3⟩ := hb
    obtain ⟨mn, rfl⟩ := Int.eq_ofNat_of_zero_le hm
    rw [Int.natAbs_ofNat] at hb1
    have hge : (Double.finite (mn : Int) e).geZero = true := by simp [Double.geZero]
    by_cases he : 0 ≤ e
    · obtain ⟨n, rfl⟩ := Int.eq_ofNat_of_zero_le he
      have hval : (Double.finite (mn : Int) (n : Int)).toRat = ((mn * 2 ^ n : Nat) : ℚ) := by
        simp only [Double.toRat, zpow_natCast]
        push_cast
        rfl
      rw [hval] at hlong ⊢
      have hl : mn * 2 ^ n < 2 ^ 63 := by exact_mod_cast hlong
      have hs := secondsToTimeval_nonneg_exp mn n hb1 (by omega) hl
      refine ⟨⟨((mn * 2 ^ n : Nat) : Int), 0⟩, ?_, ?_, le_refl 0, by norm_num, ?_, ?_⟩
      · simp only [addToLoopTimeval, hge, if_true, hs, Option.map]
      · show ((mn * 2 ^ n : Nat) : Int) = ⌊((mn * 2 ^ n : Nat) : ℚ)⌋
        rw [Int.floor_natCast]
      · show (((mn * 2 ^ n : Nat) : Int) : ℚ) * 10 ^ 6 + ((0 : Int) : ℚ) - 1 / 2 ^ 34 ≤ _
        push_cast
        norm_num
      · show _ < (((mn * 2 ^ n : Nat) : Int) : ℚ) * 10 ^ 6 + ((0 : Int) : ℚ) + 1
        push_cast
        norm_num
    · obtain ⟨k, hk⟩ : ∃ k : Nat, e = -(k : Int) := ⟨(-e).toNat, by omega⟩
      subst hk
      have hk1 : 1 ≤ k := by omega
      have hk2 : k ≤ 1074 := by omega
      obtain ⟨u, hs, hu1, hu2, hu3⟩ := secondsToTimeval_neg_exp mn k hb1 hk1 hk2
      have hP : (0 : ℚ) < 2 ^ k := by positivity
      have hval : (Double.finite (mn : Int) (-(k : Int))).toRat = (mn : ℚ) / 2 ^ k := by
        simp only [Double.toRat, zpow_neg, zpow_natCast]
        push_cast
        rw [div_eq_mul_inv]
      have hdm : ((2 ^ k * (mn / 2 ^ k) + mn % 2 ^ k : Nat) : ℚ) = (mn : ℚ) := by
        exact_mod_cast Nat.div_add_mod mn (2 ^ k)
      push_cast at hdm
      have hu2q : ((mn % 2 ^ k : Nat) : ℚ) * 1000000 < ((u : ℚ) + 1) * 2 ^ k := by exact_mod_cast hu2
      have hu3q : (u : ℚ) * 2 ^ k * 2 ^ 34 ≤ ((mn % 2 ^ k : Nat) : ℚ) * 1000000 * 2 ^ 34 + 2 ^ k := by
        exact_mod_cast hu3
      rw [hval]
      have hsplit : (mn : ℚ) / 2 ^ k * 10 ^ 6
          = ((mn / 2 ^ k : Nat) : ℚ) * 10 ^ 6 + ((mn % 2 ^ k : Nat) : ℚ) * 1000000 / 2 ^ k := by
        rw [← hdm]
        field_simp
        ring
      have c1 : (((mn / 2 ^ k : Nat) : Int) : ℚ) = ((mn / 2 ^ k : Nat) : ℚ) := Int.cast_natCast _
      have c2 : ((u : Int) : ℚ) = (u : ℚ) := Int.cast_natCast u
      have h34 : (0 : ℚ) < 2 ^ 34 := by positivity
      refine ⟨⟨((mn / 2 ^ k : Nat) : Int), (u : Int)⟩, ?_, ?_, Int.ofNat_nonneg u, ?_, ?_, ?_⟩
      · simp only [addToLoopTimeval, hge, if_true, hs, Option.map]
      · show ((mn / 2 ^ k : Nat) : Int) = ⌊(mn : ℚ) / 2 ^ k⌋
        have h := Rat.floor_intCast_div_natCast (mn : Int) (2 ^ k)
        rw [Int.cast_natCast, Nat.cast_pow, Nat.cast_ofNat] at h
        rw [h]
        push_cast
        rfl
      · show (u : Int) < 1000000
        exact_mod_cast hu1
      · show (((mn / 2 ^ k : Nat) : Int) : ℚ) * 10 ^ 6 + ((u : Int) : ℚ) - 1 / 2 ^ 34 ≤ _
        rw [c1, c2, hsplit]
        have h1 : (u : ℚ) - 1 / 2 ^ 34 ≤ ((mn % 2 ^ k : Nat) : ℚ) * 1000000 / 2 ^ k := by
          rw [le_div_iff₀ hP]
          have h2 : ((u : ℚ) - 1 / 2 ^ 34) * 2 ^ k = ((u : ℚ) * 2 ^ k * 2 ^ 34 - 2 ^ k) / 2 ^ 34 := by
            field_simp
            ring
          rw [h2, div_le_iff₀ h34]
          linarith
        linarith
      · show _ < (((mn / 2 ^ k : Nat) : Int) : ℚ) * 10 ^ 6 + ((u : Int) : ℚ) + 1
        rw [c1, c2, hsplit]
        have h1 : ((mn % 2 ^ k : Nat) : ℚ) * 1000000 / 2 ^ k < (u : ℚ) + 1 := by
          rw [div_lt_iff₀ hP]
          exact hu2q
        linarith
  · intro m1 e1 h
    have : ¬ (0 ≤ m1) := by omega
    simp [addToLoopTimeval, Double.geZero, this]

/-- C4, witness: the timeout `2.5` is handed over as `(2, 500000)`, within the
stated bounds. -/
theorem addToLoopTimeval_spec_witness :
    ∃ tv : timeval, addToLoopTimeval (Double.finite 5 (-1)) = some (some tv) ∧
      tv.tv_sec = ⌊(Double.finite 5 (-1)).toRat⌋ ∧ 0 ≤ tv.tv_usec ∧ tv.tv_usec < 1000000 ∧
      (tv.tv_sec : ℚ) * 10 ^ 6 + tv.tv_usec - 1 / 2 ^ 34 ≤ (Double.finite 5 (-1)).toRat * 10 ^ 6 ∧
      (Double.finite 5 (-1)).toRat * 10 ^ 6 < (tv.tv_sec : ℚ) * 10 ^ 6 + tv.tv_usec + 1 :=
  (addToLoopTimeval_spec 5 (-1) (by simp only [Double.IsBinary64]; decide) (by decide)
    (by simp only [Double.toRat]; norm_num)).1

/-! ### The callback thunk -/

/-- C5, the code at the failing input: when the callback of `evDirect` raises
`SystemExit`, `PyErr_Print` ends the process with the exit code; nothing is
reported on `sys.stderr` and the thunk does not return to the dispatcher. -/
theorem thunk_SystemExit_ends_process :
    (__libevent_ev_callback runSystemExit py0 5 EV_READ evDirect).map
        (fun r => (r.py.exited, r.py.stderr, r.py.curexc))
      = some (some 1, [], some (PyExc.systemExit 1)) := by
  decide

/-- For every outcome of the callback other than `SystemExit` the thunk does
return with no exception pending, and a raised exception has been reported on
`sys.stderr`: the thunk itself never ends the process then. -/
theorem thunk_isolates_failure (run : CallbackRun) (py : PyState) (fd events : Int)
    (ev : EventObject) (cb : PyObj) (hcb : ev.callback = some cb)
    (hnot : ∀ code, (run ⟨cb, [PyObj.int fd, PyObj.int events, PyObj.event ev.id], Option.none⟩
      py ev.incref).1 ≠ Except.error (PyExc.systemExit code)) :
    ∃ r, __libevent_ev_callback run py fd events ev = some r ∧
      r.py.exited = (run ⟨cb, [PyObj.int fd, PyObj.int events, PyObj.event ev.id], Option.none⟩
        py ev.incref).2.1.exited ∧
      ∀ e, (run ⟨cb, [PyObj.int fd, PyObj.int events, PyObj.event ev.id], Option.none⟩
          py ev.incref).1 = Except.error e →
        r.py.curexc = Option.none ∧ StderrItem.traceback e ∈ r.py.stderr := by
  simp only [__libevent_ev_callback, hcb]
  generalize hrun : run ⟨cb, [PyObj.int fd, PyObj.int events, PyObj.event ev.id], Option.none⟩
    py ev.incref = out at hnot
  obtain ⟨res, py1, ev1⟩ := out
  cases res with
  | ok v => exact ⟨_, rfl, rfl, fun e he => by cases he⟩
  | error e =>
    have hne : ∀ code, e ≠ PyExc.systemExit code := fun code h => hnot code (by rw [h])
    cases e with
    | systemExit code => exact absurd rfl (hne code)
    | typeError | overflowError | valueError | eventError _ | eventErrno _ | raised _ =>
      cases hx : py1.exited <;>
        simp [PyErr_Print, PyErr_Set, PyErr_WriteUnraisable, hx]

/-- Parsing of three positional arguments by the format `"OiO"`. -/
theorem parse_OiO (a b c : PyObj) (k1 k2 k3 : String) :
    PyArg_ParseTupleAndKeywords [a, b, c] [] 3 [Fmt.O, Fmt.i, Fmt.O] [k1, k2, k3] =
      match convertitem Fmt.i b with
      | Except.error e => Except.error e
      | Except.ok v => Except.ok [some (CVal.obj a), some v, some (CVal.obj c)] := by
  have hO : ∀ o, convertitem Fmt.O o = Except.ok (CVal.obj o) := fun o => by cases o <;> rfl
  simp only [PyArg_ParseTupleAndKeywords, parseFrom, hO, List.lookup, List.get?,
    List.length, List.any]
  generalize convertitem Fmt.i b = r
  cases r <;> simp [Except.map]

/-- C6: an event initialised by `Event_Init(self, fd, events, cb)` registers
`self` as the argument of its thunk, and whenever the thunk is fired on that
object (`evNow`: the same object later on, its callback field as initialised)
with a descriptor `fd1` and result flags `res`, it invokes the callback `cb`
exactly once, with the three positional arguments `fd1`, `res` and the event
object `self` itself, and without keyword arguments: what the thunk leaves
behind is what one run of the Python code `run` on exactly this call, started
in the state the thunk was entered in (the event holding one more reference),
leaves behind, the event with that reference released, and the interpreter as
it stands after a return or after the report of the exception raised. -/
theorem thunk_invokes_callback_once {σ : Type} (L : Libevent σ) (fileno : PyObj → Except PyExc Int)
    (lib : σ) (py py1 py2 : PyState) (self self1 evNow : EventObject) (fdObj cb : PyObj) (evs : Int)
    (run : CallbackRun) (fd1 res : Int)
    (hinit : Event_Init L fileno lib py self [fdObj, PyObj.int evs, cb] [] = (0, py1, self1))
    (hsame : evNow.id = self1.id ∧ evNow.callback = self1.callback) :
    self1.id = self.id ∧ self1.callback = some cb ∧
    (∃ fd, self1.ev = L.event_set lib self.ev fd (toShort evs) self.id) ∧
    ∃ r, __libevent_ev_callback run py2 fd1 res evNow = some r ∧
      r.invoked = [⟨cb, [PyObj.int fd1, PyObj.int res, PyObj.event self.id], Option.none⟩] ∧
      r.ev = (run ⟨cb, [PyObj.int fd1, PyObj.int res, PyObj.event self.id], Option.none⟩
        py2 evNow.incref).2.2.decref ∧
      (∀ v, (run ⟨cb, [PyObj.int fd1, PyObj.int res, PyObj.event self.id], Option.none⟩
          py2 evNow.incref).1 = Except.ok v →
        r.py = (run ⟨cb, [PyObj.int fd1, PyObj.int res, PyObj.event self.id], Option.none⟩
          py2 evNow.incref).2.1) ∧
      (∀ e, (run ⟨cb, [PyObj.int fd1, PyObj.int res, PyObj.event self.id], Option.none⟩
          py2 evNow.incref).1 = Except.error e →
        r.py =
          if (PyErr_Print (PyErr_Set (run ⟨cb, [PyObj.int fd1, PyObj.int res, PyObj.event self.id],
              Option.none⟩ py2 evNow.incref).2.1 e)).exited.isSome then
            PyErr_Print (PyErr_Set (run ⟨cb, [PyObj.int fd1, PyObj.int res, PyObj.event self.id],
              Option.none⟩ py2 evNow.incref).2.1 e)
          else
            PyErr_WriteUnraisable
              (PyErr_Print (PyErr_Set (run ⟨cb, [PyObj.int fd1, PyObj.int res,
                PyObj.event self.id], Option.none⟩ py2 evNow.incref).2.1 e))
              ((run ⟨cb, [PyObj.int fd1, PyObj.int res, PyObj.event self.id], Option.none⟩
                py2 evNow.incref).2.2.decref.callback.getD PyObj.none)) := by
  have hfield : self1.id = self.id ∧ self1.callback = some cb ∧
      ∃ fd, self1.ev = L.event_set lib self.ev fd (toShort evs) self.id := by
    simp only [Event_Init, parse_OiO, convertitem] at hinit
    by_cases hr : INT_MIN ≤ evs ∧ evs ≤ INT_MAX
    · simp only [hr, and_self, if_true] at hinit
      by_cases hc : PyCallable_Check cb = true
      · simp only [hc, Bool.not_true, Bool.false_eq_true, if_false] at hinit
        split at hinit
        · simp at hinit
        · rename_i fd hfd
          split at hinit
          · simp at hinit
          · simp only [Prod.mk.injEq, true_and] at hinit
            obtain ⟨-, rfl⟩ := hinit
            exact ⟨rfl, rfl, fd, rfl⟩
      · simp [hc] at hinit
    · simp [hr] at hinit
  obtain ⟨hid, hcb, hev⟩ := hfield
  refine ⟨hid, hcb, hev, ?_⟩
  have hcb2 : evNow.callback = some cb := by rw [hsame.2, hcb]
  have hid2 : evNow.id = self.id := by rw [hsame.1, hid]
  simp only [__libevent_ev_callback, hcb2, hid2]
  generalize run ⟨cb, [PyObj.int fd1, PyObj.int res, PyObj.event self.id], Option.none⟩
    py2 evNow.incref = out
  obtain ⟨outcome, pyAfter, evAfter⟩ := out
  cases outcome with
  | ok v =>
    refine ⟨_, rfl, rfl, rfl, fun _ _ => rfl, fun e he => by cases he⟩
  | error e =>
    by_cases hx : (PyErr_Print (PyErr_Set pyAfter e)).exited.isSome = true
    · simp only [hx, if_true]
      refine ⟨_, rfl, rfl, rfl, fun v hv => (by cases hv), fun e1 he1 => ?_⟩
      cases he1
      simp only [hx, if_true]
    · simp only [hx, if_false, Bool.false_eq_true]
      refine ⟨_, rfl, rfl, rfl, fun v hv => (by cases hv), fun e1 he1 => ?_⟩
      cases he1
      simp only [hx, if_false, Bool.false_eq_true]

/-- C6, witness: `evDirect` was initialised with `cb0`; fired after it has been
armed, with descriptor 5 and `EV_READ`, its thunk makes the one call
`cb0(5, EV_READ, <event 2>)`: the probing callback answers exactly this call
with its exception 42, which is then found reported on `sys.stderr`. -/
theorem thunk_invokes_callback_once_witness :
    ∃ r, __libevent_ev_callback runProbe py0 5 EV_READ armedRun.self = some r ∧
      r.invoked = [⟨cb0, [PyObj.int 5, PyObj.int EV_READ, PyObj.event 2], Option.none⟩] ∧
      r.py = { py0 with stderr := [StderrItem.traceback (PyExc.raised 42),
        StderrItem.unraisable Option.none cb0] } :=
  match (thunk_invokes_callback_once libevent1 noFileno lib0 py0 py0 py0 (Event_New 2) evDirect
    armedRun.self (PyObj.int 5) cb0 EV_READ runProbe 5 EV_READ (by decide) (by decide)).2.2.2 with
  | ⟨r, hr, hinv, _, _, herr⟩ =>
    ⟨r, hr, hinv, (herr (PyExc.raised 42) (by decide)).trans (by decide)⟩

/-! ### The event base -/

/-- C7: `EventBase_Init` without an argument calls the priority initialisation
of libevent with exactly 3 tiers, and with `numPriorities = n` for a positive
`n` (a C `int`), given by position or by keyword, with exactly `n` tiers; the
state libevent leaves is adopted, and the result is `-1` exactly when that call
reports a negative status, `0` otherwise. -/
theorem EventBase_Init_priorities {σ : Type} (L : Libevent σ) (lib : σ) (py : PyState)
    (self : EventBaseObject) (n : Int) (hn : 0 < n) (hmax : n ≤ INT_MAX) :
    EventBase_Init L lib py self [] [] =
        (if (L.event_base_priority_init lib self.ev_base 3).1 < 0 then -1 else 0,
          (L.event_base_priority_init lib self.ev_base 3).2, py) ∧
      EventBase_Init L lib py self [PyObj.int n] [] =
        (if (L.event_base_priority_init lib self.ev_base n).1 < 0 then -1 else 0,
          (L.event_base_priority_init lib self.ev_base n).2, py) ∧
      EventBase_Init L lib py self [] [("numPriorities", PyObj.int n)] =
        (if (L.event_base_priority_init lib self.ev_base n).1 < 0 then -1 else 0,
          (L.event_base_priority_init lib self.ev_base n).2, py) ∧
      ((EventBase_Init L lib py self [] []).1 = -1 ↔
        (L.event_base_priority_init lib self.ev_base 3).1 < 0) ∧
      ((EventBase_Init L lib py self [PyObj.int n] []).1 = -1 ↔
        (L.event_base_priority_init lib self.ev_base n).1 < 0) := by
  have hmin : INT_MIN ≤ n := by
    have : INT_MIN = -2147483648 := rfl
    omega
  have hne : n ≠ 0 := by omega
  have h0 : EventBase_Init L lib py self [] [] =
      (if (L.event_base_priority_init lib self.ev_base 3).1 < 0 then -1 else 0,
        (L.event_base_priority_init lib self.ev_base 3).2, py) := by
    have hp : PyArg_ParseTupleAndKeywords [] [] 0 [Fmt.i] ["numPriorities"] = Except.ok [Option.none] := by
      decide
    simp only [EventBase_Init, hp, DEFAULT_NUM_PRIORITIES, if_true]
    by_cases h : (L.event_base_priority_init lib self.ev_base 3).1 < 0 <;> simp [h]
  have h1 : EventBase_Init L lib py self [PyObj.int n] [] =
      (if (L.event_base_priority_init lib self.ev_base n).1 < 0 then -1 else 0,
        (L.event_base_priority_init lib self.ev_base n).2, py) := by
    have hp : PyArg_ParseTupleAndKeywords [PyObj.int n] [] 0 [Fmt.i] ["numPriorities"]
        = Except.ok [some (CVal.int n)] := by
      simp [PyArg_ParseTupleAndKeywords, parseFrom, convertitem, List.lookup, Except.map, hmin, hmax]
    simp only [EventBase_Init, hp, hne, if_false]
    by_cases h : (L.event_base_priority_init lib self.ev_base n).1 < 0 <;> simp [h]
  have h2 : EventBase_Init L lib py self [] [("numPriorities", PyObj.int n)] =
      (if (L.event_base_priority_init lib self.ev_base n).1 < 0 then -1 else 0,
        (L.event_base_priority_init lib self.ev_base n).2, py) := by
    have hp : PyArg_ParseTupleAndKeywords [] [("numPriorities", PyObj.int n)] 0 [Fmt.i]
        ["numPriorities"] = Except.ok [some (CVal.int n)] := by
      simp [PyArg_ParseTupleAndKeywords, parseFrom, convertitem, List.lookup, Except.map, hmin, hmax]
    simp only [EventBase_Init, hp, hne, if_false]
    by_cases h : (L.event_base_priority_init lib self.ev_base n).1 < 0 <;> simp [h]
  refine ⟨h0, h1, h2, ?_, ?_⟩
  · rw [h0]
    by_cases h : (L.event_base_priority_init lib self.ev_base 3).1 < 0 <;> simp [h]
  · rw [h1]
    by_cases h : (L.event_base_priority_init lib self.ev_base n).1 < 0 <;> simp [h]

/-- C7, witness: on the libevent instance, `EventBase(numPriorities=5)` leaves
the base with 5 priority tiers and succeeds. -/
theorem EventBase_Init_priorities_witness :
    EventBase_Init libevent1 lib0 py0 base0 [PyObj.int 5] [] =
      (0, { lib0 with nactivequeues := 5 }, py0) :=
  (EventBase_Init_priorities libevent1 lib0 py0 base0 5 (by decide) (by decide)).2.1

/-- C8: for a signal number `s` (a non-negative C `int`) and a callable `cb`,
`createSignalHandler(s, cb)` on an `EventBase` yields an event whose trigger
mask is exactly `EV_SIGNAL|EV_PERSIST`, whose target number is `s`, whose
callback is `cb`, and which is bound to that `EventBase`, in the object and in
libevent.  Of libevent it is assumed that `event_set` stores the descriptor and
the events it is given and marks the event initialised, and that
`event_base_set` accepts such a fresh event and changes its base only. -/
theorem createSignalHandler_persistent {σ : Type} (L : Libevent σ) (fileno : PyObj → Except PyExc Int)
    (lib : σ) (py : PyState) (self : EventBaseObject) (id : Nat) (s : Int) (cb : PyObj)
    (hs0 : 0 ≤ s) (hs1 : s ≤ INT_MAX) (hcb : PyCallable_Check cb = true)
    (hset : ∀ ev fd evs arg, (L.event_set lib ev fd evs arg).ev_fd = fd ∧
      (L.event_set lib ev fd evs arg).ev_events = evs ∧
      (L.event_set lib ev fd evs arg).ev_flags = EVLIST_INIT)
    (hbase : ∀ b ev, ev.ev_flags = EVLIST_INIT → 0 ≤ (L.event_base_set lib b ev).1 ∧
      (L.event_base_set lib b ev).2.ev_fd = ev.ev_fd ∧
      (L.event_base_set lib b ev).2.ev_events = ev.ev_events ∧
      (L.event_base_set lib b ev).2.ev_base = some b) :
    ∃ e, EventBase_CreateSignalHandler L fileno lib py self id [PyObj.int s, cb] [] = (some e, py) ∧
      e.ev.ev_events = Int.lor EV_SIGNAL EV_PERSIST ∧ e.ev.ev_fd = s ∧ e.callback = some cb ∧
      e.eventBase = some self ∧ e.ev.ev_base = some self.ev_base ∧ e.id = id := by
  have hmin : INT_MIN ≤ s := by
    have : INT_MIN = -2147483648 := rfl
    omega
  have hO : ∀ o, convertitem Fmt.O o = Except.ok (CVal.obj o) := fun o => by cases o <;> rfl
  have hp : PyArg_ParseTupleAndKeywords [PyObj.int s, cb] [] 2 [Fmt.i, Fmt.O] ["signal", "callback"]
      = Except.ok [some (CVal.int s), some (CVal.obj cb)] := by
    simp [PyArg_ParseTupleAndKeywords, parseFrom, convertitem, hO, List.lookup, Except.map, hmin, hs1]
  have hmask : Int.lor EV_SIGNAL EV_PERSIST = 24 := by decide
  have hfd : PyObject_AsFileDescriptor fileno (PyObj.int s) = Except.ok s := by
    have h1 : ¬ (s < INT_MIN ∨ INT_MAX < s) := by omega
    have h2 : ¬ (s < 0) := by omega
    simp only [PyObject_AsFileDescriptor, h1, h2, if_false]
  have hne : PyObj.int s ≠ PyObj.none := by simp
  obtain ⟨hf1, hf2, hf3⟩ := hset (Event_New id).ev s (toShort 24) id
  have hinit : event_initialized (L.event_set lib (Event_New id).ev s (toShort 24) id) = true := by
    simp only [event_initialized, hf3]
    decide
  obtain ⟨hb1, hb2, hb3, hb4⟩ := hbase self.ev_base _ hf3
  have hnot : ¬ ((L.event_base_set lib self.ev_base
      (L.event_set lib (Event_New id).ev s (toShort 24) id)).1 < 0) := by omega
  have hpO : PyArg_ParseTupleAndKeywords [PyObj.eventBase self] [] 1 [Fmt.O] ["eventBase"]
      = Except.ok [some (CVal.obj (PyObj.eventBase self))] := by
    simp [PyArg_ParseTupleAndKeywords, parseFrom, hO, List.lookup, Except.map]
  have hrange : INT_MIN ≤ (24 : Int) ∧ (24 : Int) ≤ INT_MAX := by decide
  refine ⟨{ id := id, ob_refcnt := 1,
            ev := (L.event_base_set lib self.ev_base
              (L.event_set lib (Event_New id).ev s (toShort 24) id)).2,
            eventBase := some self, callback := some cb }, ?_, ?_⟩
  · simp only [EventBase_CreateSignalHandler, hp, hmask, EventBase_CreateEvent, Event_Init,
      parse_OiO, convertitem, hrange, and_self, if_true, hcb, Bool.not_true, Bool.false_eq_true,
      if_false, hne, ne_eq, not_false_eq_true, hfd, hinit, Event_SetEventBase, hpO, hnot]
    simp only [Event_New] at hinit hnot ⊢
    simp [hinit, hnot]
  · refine ⟨?_, ?_, rfl, rfl, hb4, rfl⟩
    · show (L.event_base_set lib self.ev_base _).2.ev_events = _
      rw [hb3, hf2, hmask]
      decide
    · show (L.event_base_set lib self.ev_base _).2.ev_fd = _
      rw [hb2, hf1]

/-- C8, witness: on the libevent instance, `createSignalHandler(15, cb0)` yields
an event with mask `EV_SIGNAL|EV_PERSIST`, number 15, callback `cb0`, bound to
the base it was created from. -/
theorem createSignalHandler_persistent_witness :
    ∃ e, EventBase_CreateSignalHandler libevent1 noFileno lib0 py0 base0 3 [PyObj.int 15, cb0] []
        = (some e, py0) ∧
      e.ev.ev_events = Int.lor EV_SIGNAL EV_PERSIST ∧ e.ev.ev_fd = 15 ∧ e.callback = some cb0 ∧
      e.eventBase = some base0 ∧ e.ev.ev_base = some base0.ev_base ∧ e.id = 3 :=
  createSignalHandler_persistent libevent1 noFileno lib0 py0 base0 3 15 cb0 (by decide) (by decide)
    (by decide) (fun _ _ _ _ => ⟨rfl, rfl, rfl⟩)
    (fun b ev h => by
      have h1 : libevent1.event_base_set lib0 b ev
          = (0, { ev with ev_base := some b, ev_pri := Int.tdiv lib0.nactivequeues 2 }) := by
        show Libevent1.event_base_set lib0 b ev = _
        simp [Libevent1.event_base_set, h]
      rw [h1]
      exact ⟨le_refl 0, rfl, rfl, rfl⟩)

/-- C9, the code at the failing input: `loop()` without argument passes
`flags = 0`, and with two events that become ready one after the other
libevent performs two multiplexing waits before the call returns (with status
1, no events being left). -/
theorem loop_default_flags_two_waits :
    EventBase_Loop libevent1 libTwoReady py0 base0 [] []
      = ⟨some (PyObj.int 1), { libTwoReady with event_count := 0, waits := 2, script := [] }, py0⟩ := by
  decide

/-- Whatever libevent does, `loop()` makes one call of `event_base_loop`, with
the flags given (0 when omitted), and returns its status as a Python integer,
the library and interpreter states being those this call leaves. -/
theorem EventBase_Loop_calls_event_base_loop {σ : Type} (L : Libevent σ) (lib : σ) (py : PyState)
    (self : EventBaseObject) (flags : Int) (h1 : INT_MIN ≤ flags) (h2 : flags ≤ INT_MAX) :
    EventBase_Loop L lib py self [] [] =
        ⟨some (PyObj.int (L.event_base_loop lib py self.ev_base 0).1),
          (L.event_base_loop lib py self.ev_base 0).2.1, (L.event_base_loop lib py self.ev_base 0).2.2⟩ ∧
      EventBase_Loop L lib py self [PyObj.int flags] [] =
        ⟨some (PyObj.int (L.event_base_loop lib py self.ev_base flags).1),
          (L.event_base_loop lib py self.ev_base flags).2.1,
          (L.event_base_loop lib py self.ev_base flags).2.2⟩ := by
  have hp0 : PyArg_ParseTupleAndKeywords [] [] 0 [Fmt.i] ["flags"] = Except.ok [Option.none] := by
    decide
  have hp1 : PyArg_ParseTupleAndKeywords [PyObj.int flags] [] 0 [Fmt.i] ["flags"]
      = Except.ok [some (CVal.int flags)] := by
    simp [PyArg_ParseTupleAndKeywords, parseFrom, convertitem, List.lookup, Except.map, h1, h2]
  constructor
  · simp only [EventBase_Loop, hp0]
  · simp only [EventBase_Loop, hp1]

/-- C10, the code at the failing input: `loopExit()` without argument fails
with a `TypeError`, whatever libevent would do; no exit is scheduled, the
library state being untouched. -/
theorem loopExit_requires_seconds {σ : Type} (L : Libevent σ) (lib : σ) (py : PyState)
    (self : EventBaseObject) :
    EventBase_LoopExit L lib py self [] [] = some ⟨Option.none, lib, PyErr_Set py PyExc.typeError⟩ := by
  have hp : PyArg_ParseTupleAndKeywords [] [] 1 [Fmt.d] ["seconds"] = Except.error PyExc.typeError := by
    decide
  simp only [EventBase_LoopExit, hp]

/-- With the argument given, `loopExit(0)` hands the timeval `(0, 0)` to
`event_base_loopexit` and returns its status. -/
theorem loopExit_zero {σ : Type} (L : Libevent σ) (lib : σ) (py : PyState) (self : EventBaseObject) :
    EventBase_LoopExit L lib py self [PyObj.int 0] [] =
      some ⟨some (PyObj.int (L.event_base_loopexit lib self.ev_base ⟨0, 0⟩).1),
        (L.event_base_loopexit lib self.ev_base ⟨0, 0⟩).2, py⟩ := by
  have hp : PyArg_ParseTupleAndKeywords [PyObj.int 0] [] 1 [Fmt.d] ["seconds"]
      = Except.ok [some (CVal.dbl (Double.finite 0 0))] := by
    decide
  have htv : secondsToTimeval (Double.finite 0 0) = some ⟨0, 0⟩ := by decide
  simp only [EventBase_LoopExit, hp, htv]

/-! ### The timeout query -/

theorem land_zero (x : Int) : Int.land x 0 = 0 := by
  cases x with
  | ofNat m =>
    show ((Nat.land m 0 : Nat) : Int) = 0
    have : Nat.land m 0 = 0 := Nat.and_zero m
    rw [this]
    rfl
  | negSucc m =>
    show ((Nat.ldiff 0 m : Nat) : Int) = 0
    have : Nat.ldiff 0 m = 0 := by simp [Nat.ldiff]
    rw [this]
    rfl

/-- On the libevent instance a query with the event mask `0` reports nothing
and stores no time, whatever the state of the event. -/
theorem event_pending_mask_zero (s : LibState) (ev : event) (wantTv : Bool) :
    Libevent1.event_pending s ev 0 wantTv = (0, Option.none) := by
  have h0 : Int.land 0 (Int.lor (Int.lor EV_TIMEOUT EV_READ) (Int.lor EV_WRITE EV_SIGNAL)) = 0 := by
    decide
  simp only [Libevent1.event_pending, h0, land_zero]
  have h1 : hasBits 0 EV_TIMEOUT = false := by decide
  simp [h1]
/-- On the libevent instance `getTimeout()` returns `None` for every event in
every state of the library. -/
theorem getTimeout_libevent1_None (s : LibState) (self : EventObject) :
    Event_GetTimeout libevent1 s self = PyObj.none := by
  have h : libevent1.event_pending s self.ev 0 true = (0, Option.none) :=
    event_pending_mask_zero s self.ev true
  simp only [Event_GetTimeout, h]

set_option maxRecDepth 8000 in
/-- Asked with the mask `EV_TIMEOUT`, libevent does report the timeout of the
event of `timedRun`: the deadline 1005 s on its clock, which `getTimeout`
would return as the float `1005.0`. -/
theorem event_pending_reports_deadline :
    libevent1.event_pending timedRun.lib timedRun.self.ev EV_TIMEOUT true = (1, some ⟨1005, 0⟩) ∧
      (timevalToSeconds ⟨1005, 0⟩).toRat = 1005 := by
  constructor
  · decide
  · have h : timevalToSeconds ⟨1005, 0⟩ = Double.finite 8840073487319040 (-43) := by decide
    rw [h]
    simp only [Double.toRat]
    norm_num

/-- C11, the code at the failing input: right after a successful
`addToLoop(timeout=5.0)` the event is in the timer queue with its deadline set,
and `getTimeout()` returns `None`, not a number between 4.9 and 5.0:
`event_pending` is asked with the event mask `0` and so stores no time. -/
theorem getTimeout_after_timed_add :
    timedRun.result = some PyObj.none ∧
      hasBits timedRun.self.ev.ev_flags EVLIST_TIMEOUT = true ∧
      timedRun.self.ev.ev_timeout = ⟨1005, 0⟩ ∧
      Event_GetTimeout libevent1 timedRun.lib timedRun.self = PyObj.none := by
  decide
/-! ### Priorities -/

/-- Parsing of one positional integer in the range of `int` by the format `"|i"`. -/
theorem parse_optional_int (p : Int) (kw : String) (h1 : INT_MIN ≤ p) (h2 : p ≤ INT_MAX) :
    PyArg_ParseTupleAndKeywords [PyObj.int p] [] 0 [Fmt.i] [kw] = Except.ok [some (CVal.int p)] := by
  simp [PyArg_ParseTupleAndKeywords, parseFrom, convertitem, List.lookup, Except.map, h1, h2]

/-- C12, counterexample: the event of `armedRun` is armed (inserted into the
loop, not yet fired) with priority 1, and `setPriority(0)` returns `None`
without an error and changes the priority to 0. -/
theorem setPriority_armed_succeeds :
    armedRun.self.ev.armed = true ∧ armedRun.self.ev.ev_pri = 1 ∧
      Event_SetPriority libevent1 armedRun.lib armedRun.py armedRun.self [PyObj.int 0] []
        = ⟨some PyObj.none, armedRun.lib, armedRun.py,
            { armedRun.self with ev := { armedRun.self.ev with ev_pri := 0 } }⟩ := by
  decide

/-- C12, amended: for every event and every priority `p` (a C `int`),
`setPriority(p)` fails exactly when `event_priority_set` reports a negative
status; the failing call raises `EventError`, takes no reference and leaves the
`struct event` as `event_priority_set` left it.  With libevent that is the
case for every event that is active (made ready, its callback still to run):
the call fails and the priority is unchanged.  The binding makes no test of
its own whether the event is armed. -/
theorem setPriority_fails_iff_event_priority_set_fails {σ : Type} (L : Libevent σ) (lib : σ)
    (py : PyState) (self : EventObject) (p : Int) (h1 : INT_MIN ≤ p) (h2 : p ≤ INT_MAX) :
    ((Event_SetPriority L lib py self [PyObj.int p] []).result = Option.none ↔
        (L.event_priority_set lib self.ev p).1 < 0) ∧
      ((Event_SetPriority L lib py self [PyObj.int p] []).result = Option.none →
        (Event_SetPriority L lib py self [PyObj.int p] []).py.curexc = some (PyExc.eventError
          "error setting event priority - event is either already active or priorities are not enabled") ∧
        (Event_SetPriority L lib py self [PyObj.int p] []).self.ob_refcnt = self.ob_refcnt ∧
        (Event_SetPriority L lib py self [PyObj.int p] []).self.ev
          = (L.event_priority_set lib self.ev p).2 ∧
        (Event_SetPriority L lib py self [PyObj.int p] []).lib = lib) ∧
      (∀ s : LibState, hasBits self.ev.ev_flags EVLIST_ACTIVE = true →
        (Event_SetPriority libevent1 s py self [PyObj.int p] []).result = Option.none ∧
        (Event_SetPriority libevent1 s py self [PyObj.int p] []).self.ev.ev_pri = self.ev.ev_pri) := by
  have hgen : ∀ {τ : Type} (K : Libevent τ) (l : τ),
      Event_SetPriority K l py self [PyObj.int p] [] =
        if (K.event_priority_set l self.ev p).1 < 0 then
          ⟨Option.none, l, PyErr_Set py (PyExc.eventError
            "error setting event priority - event is either already active or priorities are not enabled"),
            { self with ev := (K.event_priority_set l self.ev p).2 }⟩
        else ⟨some PyObj.none, l, py, { self with ev := (K.event_priority_set l self.ev p).2 }⟩ := by
    intro τ K l
    simp only [Event_SetPriority, parse_optional_int p "priority" h1 h2]
  refine ⟨?_, ?_, ?_⟩
  · rw [hgen L lib]
    by_cases h : (L.event_priority_set lib self.ev p).1 < 0 <;> simp [h]
  · rw [hgen L lib]
    by_cases h : (L.event_priority_set lib self.ev p).1 < 0 <;> simp [h, PyErr_Set]
  · intro s hact
    have hps : libevent1.event_priority_set s self.ev p = (-1, self.ev) := by
      show Libevent1.event_priority_set s self.ev p = _
      simp [Libevent1.event_priority_set, hact]
    rw [hgen libevent1 s, hps]
    simp

/-- C12, witness: on the active event `activeEv`, `setPriority(0)` fails and
the priority stays 1. -/
theorem setPriority_active_fails_witness :
    (Event_SetPriority libevent1 armedRun.lib py0 activeEv [PyObj.int 0] []).result = Option.none ∧
      (Event_SetPriority libevent1 armedRun.lib py0 activeEv [PyObj.int 0] []).self.ev.ev_pri = 1 :=
  (setPriority_fails_iff_event_priority_set_fails libevent1 armedRun.lib py0 activeEv 0
    (by decide) (by decide)).2.2 armedRun.lib (by decide)
/-! ### Reference counts over call sequences -/

/-- A successful `addToLoop` raises the reference count by one, a failing one
leaves it. -/
theorem Event_AddToLoop_refcnt {σ : Type} (L : Libevent σ) (lib : σ) (py : PyState)
    (self : EventObject) (args : List PyObj) (kwargs : List (String × PyObj)) (c : EventCall σ)
    (hc : Event_AddToLoop L lib py self args kwargs = some c) :
    c.self.ob_refcnt = self.ob_refcnt + (if c.result.isSome then 1 else 0) := by
  unfold Event_AddToLoop at hc
  split at hc
  · cases hc
    simp
  · split at hc
    · cases hc
    · simp only at hc
      split at hc
      · cases hc
        simp
      · cases hc
        simp [EventObject.incref]

/-- A successful `removeFromLoop` lowers the reference count by one, a failing
one leaves it. -/
theorem Event_RemoveFromLoop_refcnt {σ : Type} (L : Libevent σ) (lib : σ) (py : PyState)
    (self : EventObject) :
    (Event_RemoveFromLoop L lib py self).self.ob_refcnt
      = self.ob_refcnt - (if (Event_RemoveFromLoop L lib py self).result.isSome then 1 else 0) := by
  unfold Event_RemoveFromLoop
  by_cases h : (L.event_del lib self.ev).1 < 0
  · simp [h]
  · simp [h, EventObject.decref]

/-- Over every sequence of `addToLoop` and `removeFromLoop` calls on one event
the reference count changes by the number of successful adds minus the number
of successful removes, whatever libevent does. -/
theorem callSequence_refcnt {σ : Type} (L : Libevent σ) (calls : List LoopCall) :
    ∀ t t1 : LoopTrace σ, callSequence L calls t = some t1 →
      t1.self.ob_refcnt + t1.removes - t1.adds = t.self.ob_refcnt + t.removes - t.adds := by
  induction calls with
  | nil =>
    intro t t1 h
    simp only [callSequence, Option.some.injEq] at h
    rw [h]
  | cons call rest ih =>
    intro t t1 h
    simp only [callSequence] at h
    split at h
    · cases h
    · rename_i t2 hstep
      rw [ih t2 t1 h]
      cases call with
      | addToLoop args kwargs =>
        simp only [loopCallStep] at hstep
        split at hstep
        · cases hstep
        · rename_i c hc
          have h2 := Event_AddToLoop_refcnt L t.lib t.py t.self args kwargs c hc
          cases hstep
          simp only
          rw [h2]
          by_cases hs : c.result.isSome = true
          · simp only [hs, if_true]
            push_cast
            omega
          · simp only [hs, if_false, Bool.false_eq_true]
            omega
      | removeFromLoop =>
        simp only [loopCallStep, Option.some.injEq] at hstep
        have h2 := Event_RemoveFromLoop_refcnt L t.lib t.py t.self
        cases hstep
        simp only
        rw [h2]
        by_cases hs : (Event_RemoveFromLoop L t.lib t.py t.self).result.isSome = true
        · simp only [hs, if_true]
          push_cast
          omega
        · simp only [hs, if_false, Bool.false_eq_true]
          omega

/-- Firing the thunk leaves the reference count where the callback left it,
less the reference the thunk took for the call: with a callback that hands the
event back with the count it was given, the count is unchanged. -/
theorem thunk_refcnt (run : CallbackRun) (py : PyState) (fd events : Int) (ev : EventObject)
    (r : ThunkRun) (cb : PyObj) (hcb : ev.callback = some cb)
    (hbal : (run ⟨cb, [PyObj.int fd, PyObj.int events, PyObj.event ev.id], Option.none⟩
      py ev.incref).2.2.ob_refcnt = ev.incref.ob_refcnt)
    (hr : __libevent_ev_callback run py fd events ev = some r) :
    r.ev.ob_refcnt = ev.ob_refcnt := by
  simp only [__libevent_ev_callback, hcb] at hr
  have hdec : (run ⟨cb, [PyObj.int fd, PyObj.int events, PyObj.event ev.id], Option.none⟩
      py ev.incref).2.2.decref.ob_refcnt = ev.ob_refcnt := by
    show (run ⟨cb, [PyObj.int fd, PyObj.int events, PyObj.event ev.id], Option.none⟩
      py ev.incref).2.2.ob_refcnt - 1 = ev.ob_refcnt
    rw [hbal]
    show ev.ob_refcnt + 1 - 1 = ev.ob_refcnt
    omega
  split at hr
  · cases hr
    exact hdec
  · split at hr <;> (cases hr; exact hdec)

/-- C13, the code at the failing input: on the directly constructed event
`evDirect`, whose reference count is 1, the calls `addToLoop()`,
`removeFromLoop()`, `removeFromLoop()` all succeed, one add and two removes, and
the count ends at 0, below its value before the first `addToLoop`: the second
`removeFromLoop()` releases a reference the loop no longer holds. -/
theorem refcnt_drops_below_initial :
    evDirect.ob_refcnt = 1 ∧
      (callSequence libevent1
          [LoopCall.addToLoop [] [], LoopCall.removeFromLoop, LoopCall.removeFromLoop]
          ⟨lib0, py0, evDirect, 0, 0⟩).map
        (fun t => (t.adds, t.removes, t.self.ob_refcnt, t.self.ev.armed, t.py.curexc))
        = some (1, 2, 0, false, Option.none) := by
  decide

end EventModule
